import Mathlib

/-!
# Intel 8251 USART model (`src/i8251.h`, `src/i8251.c`)

A shallow embedding of the device state and of the functions of `i8251.c`.
Machine integers are natural numbers; a store into a `uint8_t` / `uint16_t`
object that can leave the range is reduced `% 256` / `% 65536` where the C
code performs the conversion. Functions that mutate `*usart` return the new
state; `i8251_read` returns the byte together with the new state.
-/

namespace I8251

/-! ## Data model (`i8251.h`) -/

/-- The enum `i8251_format_t`. -/
inductive i8251_format_t where
  | I8251_ASYNC
  | I8251_SYNC
  deriving DecidableEq, Repr

/-- The enum `i8251_mode_enum_t`, the configuration stage. `I8251_MODE_LEN` is
the enumerator count; no function stores it, and `i8251_write` treats it in
the `default` arm of its switch. -/
inductive i8251_mode_enum_t where
  | I8251_MODE_INSTR
  | I8251_SYNC_CHAR_1
  | I8251_SYNC_CHAR_2
  | I8251_COMMAND_INSTR
  | I8251_MODE_LEN
  deriving DecidableEq, Repr

/-- The struct `bitstream_t`: `uint16_t bits; uint8_t bits_len;`. -/
structure bitstream_t where
  bits : Nat
  bits_len : Nat
  deriving DecidableEq, Repr

/-- The struct `i8251_status_t`. -/
structure i8251_status_t where
  txrdy : Bool
  rxrdy : Bool
  txe : Bool
  pe : Bool
  oe : Bool
  fe : Bool
  syndet : Bool
  dsr : Bool
  deriving DecidableEq, Repr

/-- The struct `i8251_command_t`. -/
structure i8251_command_t where
  texn : Bool
  dtr : Bool
  rxe : Bool
  sbrk : Bool
  er : Bool
  rts : Bool
  ir : Bool
  eh : Bool
  deriving DecidableEq, Repr

/-- The struct `i8251_mode_sync_t`. -/
structure i8251_mode_sync_t where
  char_len : Nat
  pen : Bool
  ep : Bool
  esd : Bool
  scs : Bool
  deriving DecidableEq, Repr

/-- The struct `i8251_mode_async_t`. -/
structure i8251_mode_async_t where
  baud_sel : Nat
  char_len : Nat
  stop_len : Nat
  pen : Bool
  ep : Bool
  deriving DecidableEq, Repr

/-- Conversion of a C integer to `bool`: nonzero is true. -/
def c_bool (n : Nat) : Bool := n != 0

/-- Conversion of a C `bool` to an integer, `b ? 1u : 0u`. -/
def c_int (b : Bool) : Nat := if b then 1 else 0

/-- The anonymous union member `mode` of `i8251_usart_t`. Both of its members
are five one-byte fields, so they share the same five bytes: `b0` is
`asynchronous_mode.baud_sel` and `synchronous_mode.char_len`, `b1` is
`asynchronous_mode.char_len` and `synchronous_mode.pen`, `b2` is
`asynchronous_mode.stop_len` and `synchronous_mode.ep`, `b3` is
`asynchronous_mode.pen` and `synchronous_mode.esd`, `b4` is
`asynchronous_mode.ep` and `synchronous_mode.scs`. `i8251_write` stores a
member together with the matching `format`; the overlay fixes what a read of
the member that was not the last one stored sees. -/
structure i8251_mode_union where
  b0 : Nat
  b1 : Nat
  b2 : Nat
  b3 : Bool
  b4 : Bool
  deriving DecidableEq, Repr

/-- Read of `usart->mode.asynchronous_mode`. -/
def i8251_mode_union.asynchronous_mode (u : i8251_mode_union) : i8251_mode_async_t :=
  { baud_sel := u.b0, char_len := u.b1, stop_len := u.b2, pen := u.b3, ep := u.b4 }

/-- Read of `usart->mode.synchronous_mode`. -/
def i8251_mode_union.synchronous_mode (u : i8251_mode_union) : i8251_mode_sync_t :=
  { char_len := u.b0, pen := c_bool u.b1, ep := c_bool u.b2, esd := u.b3, scs := u.b4 }

/-- Store `usart->mode.asynchronous_mode = m`. -/
def store_asynchronous_mode (m : i8251_mode_async_t) : i8251_mode_union :=
  { b0 := m.baud_sel, b1 := m.char_len, b2 := m.stop_len, b3 := m.pen, b4 := m.ep }

/-- Store `usart->mode.synchronous_mode = m`. -/
def store_synchronous_mode (m : i8251_mode_sync_t) : i8251_mode_union :=
  { b0 := m.char_len, b1 := c_int m.pen, b2 := c_int m.ep, b3 := m.esd, b4 := m.scs }

/-- Modelled from the spec: the line-level members `cts`, `dsr`, `rts` and
`dtr` of the device state. `i8251.c` reads and writes `usart->cts`,
`usart->dsr`, `usart->rts` and `usart->dtr`, but the struct declaration in
`i8251.h` does not list them. The spec's line state has a request-to-send
level and a data-terminal-ready level driven by the command instruction and
two externally driven inputs, clear-to-send and data-set-ready; the code
assigns each of the four a `bool`. -/
structure line_levels where
  cts : Bool
  dsr : Bool
  rts : Bool
  dtr : Bool
  deriving DecidableEq, Repr

/-- The struct `i8251_usart_t`, the device state. -/
structure i8251_usart_t extends line_levels where
  format : i8251_format_t
  mode_st : i8251_mode_enum_t
  mode : i8251_mode_union
  command : i8251_command_t
  status : i8251_status_t
  rx_data : Nat
  tx_data : Nat
  sync_char1 : Nat
  sync_char2 : Nat
  tx_shift : bitstream_t
  rx_shift : bitstream_t
  tx_pin : Nat
  tx_clk_cnt : Nat
  rx_clk_cnt : Nat
  rx_busy : Bool
  deriving DecidableEq, Repr

/-! ## Static helpers (`i8251.c`) -/

/-- The function `decode_command`. -/
def decode_command (command : Nat) : i8251_command_t :=
  { texn := c_bool ((command >>> 0) &&& 1)
    dtr := c_bool ((command >>> 1) &&& 1)
    rxe := c_bool ((command >>> 2) &&& 1)
    sbrk := c_bool ((command >>> 3) &&& 1)
    er := c_bool ((command >>> 4) &&& 1)
    rts := c_bool ((command >>> 5) &&& 1)
    ir := c_bool ((command >>> 6) &&& 1)
    eh := c_bool ((command >>> 7) &&& 1) }

/-- The mask expression
`(data_len >= 8) ? 0xFFu : (uint8_t)((1u << data_len) - 1u)`. -/
def len_mask (data_len : Nat) : Nat :=
  if data_len ≥ 8 then 0xFF else ((1 <<< data_len) - 1) % 256

/-- The function `parity_bit`. -/
def parity_bit (data data_len : Nat) (even : Bool) : Bool :=
  let data := (data &&& len_mask data_len) % 256
  let x := data
  let x := (x ^^^ (x >>> 4)) % 256
  let x := (x ^^^ (x >>> 2)) % 256
  let x := (x ^^^ (x >>> 1)) % 256
  let odd_parity := c_bool (x &&& 1)
  if even then odd_parity else !odd_parity

/-- The function `error_clear`. -/
def error_clear (u : i8251_usart_t) : i8251_usart_t :=
  { u with status := { u.status with pe := false, oe := false, fe := false } }

/-- The data loop of `create_bitstream_sync` and `create_bitstream_async`:
`for (i; i < data_len; i++) { bits |= ((data >> i) & 1u) << bits_len; bits_len++; }`
with `n` iterations left. The counter `i` stays below the `uint8_t` bound
`data_len`, so `i++` does not wrap. -/
def data_loop (data : Nat) : Nat → Nat → bitstream_t → bitstream_t
  | 0, _, bitstream => bitstream
  | n + 1, i, bitstream =>
    data_loop data n (i + 1)
      { bits := (bitstream.bits ||| (((data >>> i) &&& 1) <<< bitstream.bits_len)) % 65536
        bits_len := (bitstream.bits_len + 1) % 256 }

/-- The stop loop of `create_bitstream_async`:
`for (i = 0; i < stop_len; i++) { bits |= 1u << bits_len; bits_len++; }`
with `n` iterations left. -/
def stop_loop : Nat → bitstream_t → bitstream_t
  | 0, bitstream => bitstream
  | n + 1, bitstream =>
    stop_loop n
      { bits := (bitstream.bits ||| (1 <<< bitstream.bits_len)) % 65536
        bits_len := (bitstream.bits_len + 1) % 256 }

/-- The parity step of both framing builders:
`if (m->pen) { bits |= (uint16_t)(pb ? 1u : 0u) << bits_len; bits_len++; }`. -/
def parity_step (data data_len : Nat) (pen ep : Bool) (bitstream : bitstream_t) : bitstream_t :=
  if pen then
    let pb := parity_bit data data_len ep
    { bits := (bitstream.bits ||| (c_int pb <<< bitstream.bits_len)) % 65536
      bits_len := (bitstream.bits_len + 1) % 256 }
  else bitstream

/-- The function `create_bitstream_sync`. -/
def create_bitstream_sync (data : Nat) (m : i8251_mode_sync_t) : bitstream_t :=
  let bitstream : bitstream_t := { bits := 0, bits_len := 0 }
  let data_len := if m.char_len > 8 then 8 else m.char_len
  let data := (data &&& len_mask data_len) % 256
  let bitstream := data_loop data data_len 0 bitstream
  parity_step data data_len m.pen m.ep bitstream

/-- The function `create_bitstream_async`. -/
def create_bitstream_async (data : Nat) (m : i8251_mode_async_t) : bitstream_t :=
  let bitstream : bitstream_t := { bits := 0, bits_len := 0 }
  let data_len := if m.char_len > 8 then 8 else m.char_len
  let data := (data &&& len_mask data_len) % 256
  let bitstream := { bitstream with bits_len := (bitstream.bits_len + 1) % 256 }
  let bitstream := data_loop data data_len 0 bitstream
  let bitstream := parity_step data data_len m.pen m.ep bitstream
  let stop_len := if m.stop_len ≠ 0 then m.stop_len else 1
  stop_loop stop_len bitstream

/-- The function `decode_async_mode`. -/
def decode_async_mode (mode : Nat) : i8251_mode_async_t :=
  let baud_sel :=
    if mode &&& 0x03 = 1 then 1
    else if mode &&& 0x03 = 2 then 16
    else if mode &&& 0x03 = 3 then 64
    else 0
  let char_len :=
    if (mode >>> 2) &&& 0x03 = 0 then 5
    else if (mode >>> 2) &&& 0x03 = 1 then 6
    else if (mode >>> 2) &&& 0x03 = 2 then 7
    else if (mode >>> 2) &&& 0x03 = 3 then 8
    else 0
  let stop_len :=
    if (mode >>> 6) &&& 0x03 = 1 then 1
    else if (mode >>> 6) &&& 0x03 = 2 then 2
    else if (mode >>> 6) &&& 0x03 = 3 then 2
    else 0
  { baud_sel := baud_sel, char_len := char_len, stop_len := stop_len
    pen := c_bool ((mode >>> 4) &&& 1), ep := c_bool ((mode >>> 5) &&& 1) }

/-- The function `decode_sync_mode`. -/
def decode_sync_mode (mode : Nat) : i8251_mode_sync_t :=
  let char_len :=
    if (mode >>> 2) &&& 0x3 = 0 then 5
    else if (mode >>> 2) &&& 0x3 = 1 then 6
    else if (mode >>> 2) &&& 0x3 = 2 then 7
    else if (mode >>> 2) &&& 0x3 = 3 then 8
    else 0
  { scs := c_bool ((mode >>> 7) &&& 1), esd := c_bool ((mode >>> 6) &&& 1)
    ep := c_bool ((mode >>> 5) &&& 1), pen := c_bool ((mode >>> 4) &&& 1)
    char_len := char_len }

/-- The function `i8251_div_async`. -/
def i8251_div_async (usart : i8251_usart_t) : Nat :=
  let d := usart.mode.asynchronous_mode.baud_sel
  if d = 0 then 1 else d

/-- The function `i8251_async_total_bits`. -/
def i8251_async_total_bits (usart : i8251_usart_t) : Nat :=
  let data_len :=
    if usart.mode.asynchronous_mode.char_len > 8 then 8
    else usart.mode.asynchronous_mode.char_len
  let stop_len :=
    if usart.mode.asynchronous_mode.stop_len = 0 then 1
    else usart.mode.asynchronous_mode.stop_len
  let pen := c_int usart.mode.asynchronous_mode.pen
  (1 + data_len + pen + stop_len) % 256

/-- The function `i8251_rx_complete_async`. -/
def i8251_rx_complete_async (usart : i8251_usart_t) (data : Nat) (parity_rx stop_ok : Bool) :
    i8251_usart_t :=
  if !usart.command.rxe then usart
  else if usart.status.rxrdy then
    { usart with status := { usart.status with oe := true } }
  else
    let data_len :=
      if usart.mode.asynchronous_mode.char_len > 8 then 8
      else usart.mode.asynchronous_mode.char_len
    let data := (data &&& len_mask data_len) % 256
    let usart := { usart with rx_data := data }
    let usart := { usart with status := { usart.status with rxrdy := true } }
    let usart :=
      if usart.mode.asynchronous_mode.pen then
        let expected := parity_bit data data_len usart.mode.asynchronous_mode.ep
        if expected != parity_rx then
          { usart with status := { usart.status with pe := true } }
        else usart
      else usart
    if !stop_ok then { usart with status := { usart.status with fe := true } }
    else usart

/-- The stop-bit scan of `i8251_tick_rx`:
`for (i; i < stop_len; i++) if (((sh >> (stop_base + i)) & 1u) == 0) { stop_ok = false; break; }`
with `n` iterations left; the result is the final `stop_ok`. The counter `i`
stays below the `uint8_t` bound `stop_len`, so `i++` does not wrap. -/
def stop_scan (sh stop_base : Nat) : Nat → Nat → Bool
  | 0, _ => true
  | n + 1, i =>
    if (sh >>> (stop_base + i)) &&& 1 = 0 then false
    else stop_scan sh stop_base n (i + 1)

/-! ## Public operations (`i8251.c`) -/

/-- The function `i8251_read`: the returned byte and the new state. -/
def i8251_read (usart : i8251_usart_t) (control_data : Bool) : Nat × i8251_usart_t :=
  let val := 0
  if control_data then
    let usart := { usart with status := { usart.status with dsr := usart.dsr } }
    let val := (val ||| (c_int usart.status.txrdy <<< 0)) % 256
    let val := (val ||| (c_int usart.status.rxrdy <<< 1)) % 256
    let val := (val ||| (c_int usart.status.txe <<< 2)) % 256
    let val := (val ||| (c_int usart.status.pe <<< 3)) % 256
    let val := (val ||| (c_int usart.status.oe <<< 4)) % 256
    let val := (val ||| (c_int usart.status.fe <<< 5)) % 256
    let val := (val ||| (c_int usart.status.syndet <<< 6)) % 256
    let val := (val ||| (c_int usart.status.dsr <<< 7)) % 256
    (val, usart)
  else
    let val := usart.rx_data
    (val, { usart with status := { usart.status with rxrdy := false } })

/-- The function `i8251_tx_line`. -/
def i8251_tx_line (usart : i8251_usart_t) : Nat :=
  if usart.tx_pin ≠ 0 then 1 else 0

/-- Lines 369 to 388 of `i8251_tick_tx`: the shift step, reached once the
enable, break, clear-to-send and divider gates have been passed. -/
def tx_shift_step (usart : i8251_usart_t) : i8251_usart_t :=
  if usart.tx_shift.bits_len = 0 then
    { usart with tx_pin := 1, status := { usart.status with txrdy := true, txe := true } }
  else
    let usart := { usart with tx_pin := if usart.tx_shift.bits &&& 1 ≠ 0 then 1 else 0 }
    let usart := { usart with tx_shift := { usart.tx_shift with bits := usart.tx_shift.bits >>> 1 } }
    let usart :=
      { usart with tx_shift := { usart.tx_shift with bits_len := usart.tx_shift.bits_len - 1 } }
    if usart.tx_shift.bits_len = 0 then
      { usart with status := { usart.status with txrdy := true, txe := true }, tx_pin := 1 }
    else usart

/-- The function `i8251_tick_tx`. -/
def i8251_tick_tx (usart : i8251_usart_t) : i8251_usart_t :=
  if !usart.command.texn then
    { usart with tx_pin := 1, tx_clk_cnt := 0 }
  else if usart.command.sbrk then
    { usart with
      tx_pin := 0, status := { usart.status with txrdy := false, txe := false }, tx_clk_cnt := 0 }
  else if usart.format = i8251_format_t.I8251_ASYNC then
    if !usart.cts then
      { usart with tx_pin := 1, status := { usart.status with txrdy := false, txe := false } }
    else
      let div := usart.mode.asynchronous_mode.baud_sel
      let div := if div = 0 then 1 else div
      let usart := { usart with tx_clk_cnt := (usart.tx_clk_cnt + 1) % 256 }
      if usart.tx_clk_cnt < div then usart
      else tx_shift_step { usart with tx_clk_cnt := 0 }
  else
    tx_shift_step { usart with tx_clk_cnt := 0 }

/-- The statements of `i8251_tick_rx` that take one sample, lines 431 to 435:
`if (bits_len < 16) { bits |= (uint16_t)((rxd ? 1u : 0u) << bits_len); bits_len++; }`. -/
def rx_sample (rx_shift : bitstream_t) (rxd : Nat) : bitstream_t :=
  if rx_shift.bits_len < 16 then
    { bits := (rx_shift.bits ||| (((if rxd ≠ 0 then 1 else 0) <<< rx_shift.bits_len) % 65536)) % 65536
      bits_len := (rx_shift.bits_len + 1) % 256 }
  else rx_shift

/-- The function `i8251_tick_rx`. -/
def i8251_tick_rx (usart : i8251_usart_t) (rxd : Nat) : i8251_usart_t :=
  if !usart.command.rxe then
    { usart with rx_clk_cnt := 0, rx_busy := false, rx_shift := { bits := 0, bits_len := 0 } }
  else if usart.format ≠ i8251_format_t.I8251_ASYNC then
    { usart with rx_clk_cnt := 0, rx_busy := false, rx_shift := { bits := 0, bits_len := 0 } }
  else if !usart.rx_busy then
    let usart := { usart with rx_clk_cnt := 0, rx_shift := { bits := 0, bits_len := 0 } }
    if rxd = 0 then
      let usart := { usart with rx_busy := true }
      let usart :=
        { usart with
          rx_shift :=
            { usart.rx_shift with
              bits := (usart.rx_shift.bits ||| (0 <<< usart.rx_shift.bits_len)) % 65536 } }
      { usart with
        rx_shift := { usart.rx_shift with bits_len := (usart.rx_shift.bits_len + 1) % 256 } }
    else usart
  else
    let div := usart.mode.asynchronous_mode.baud_sel
    let div := if div = 0 then 1 else div
    let usart := { usart with rx_clk_cnt := (usart.rx_clk_cnt + 1) % 256 }
    if usart.rx_clk_cnt < div then usart
    else
      let usart := { usart with rx_clk_cnt := 0 }
      let usart := { usart with rx_shift := rx_sample usart.rx_shift rxd }
      let data_len :=
        if usart.mode.asynchronous_mode.char_len > 8 then 8
        else usart.mode.asynchronous_mode.char_len
      let stop_len :=
        if usart.mode.asynchronous_mode.stop_len = 0 then 1
        else usart.mode.asynchronous_mode.stop_len
      let need := (1 + data_len + c_int usart.mode.asynchronous_mode.pen + stop_len) % 256
      if usart.rx_shift.bits_len < need then usart
      else
        let sh := usart.rx_shift.bits
        let start_ok := if (sh >>> 0) &&& 1 ≠ 0 then false else true
        let mask := len_mask data_len
        let data := ((sh >>> 1) &&& mask) % 256
        let parity_rx :=
          if usart.mode.asynchronous_mode.pen then
            (if (sh >>> (1 + data_len)) &&& 1 ≠ 0 then true else false)
          else false
        let stop_base := (1 + data_len + c_int usart.mode.asynchronous_mode.pen) % 256
        let stop_ok := stop_scan sh stop_base stop_len 0
        let usart :=
          if start_ok then i8251_rx_complete_async usart data parity_rx stop_ok
          else { usart with status := { usart.status with fe := true } }
        { usart with rx_busy := false, rx_shift := { bits := 0, bits_len := 0 } }

/-- The function `i8251_write`. -/
def i8251_write (usart : i8251_usart_t) (control_data : Bool) (data : Nat) : i8251_usart_t :=
  let val := data
  if !control_data then
    let usart := { usart with tx_data := data }
    if usart.command.texn then
      if usart.format = i8251_format_t.I8251_ASYNC then
        let usart :=
          if usart.mode.asynchronous_mode.stop_len = 0 then
            { usart with
              mode := store_asynchronous_mode { usart.mode.asynchronous_mode with stop_len := 1 } }
          else usart
        { usart with
          tx_shift := create_bitstream_async data usart.mode.asynchronous_mode
          status := { usart.status with txrdy := false, txe := false } }
      else
        { usart with
          tx_shift := create_bitstream_sync data usart.mode.synchronous_mode
          status := { usart.status with txrdy := false, txe := false } }
    else usart
  else
    match usart.mode_st with
    | i8251_mode_enum_t.I8251_MODE_INSTR =>
      if val &&& 0x03 = 0 then
        { usart with
          format := i8251_format_t.I8251_SYNC
          mode := store_synchronous_mode (decode_sync_mode val)
          mode_st := i8251_mode_enum_t.I8251_SYNC_CHAR_1 }
      else
        let usart :=
          { usart with
            format := i8251_format_t.I8251_ASYNC
            mode := store_asynchronous_mode (decode_async_mode val) }
        let usart :=
          if usart.mode.asynchronous_mode.stop_len = 0 then
            { usart with
              mode := store_asynchronous_mode { usart.mode.asynchronous_mode with stop_len := 1 } }
          else usart
        { usart with mode_st := i8251_mode_enum_t.I8251_COMMAND_INSTR }
    | i8251_mode_enum_t.I8251_SYNC_CHAR_1 =>
      let usart := { usart with sync_char1 := val }
      if usart.mode.synchronous_mode.scs then
        { usart with mode_st := i8251_mode_enum_t.I8251_COMMAND_INSTR }
      else
        { usart with mode_st := i8251_mode_enum_t.I8251_SYNC_CHAR_2 }
    | i8251_mode_enum_t.I8251_SYNC_CHAR_2 =>
      { usart with sync_char2 := val, mode_st := i8251_mode_enum_t.I8251_COMMAND_INSTR }
    | i8251_mode_enum_t.I8251_COMMAND_INSTR =>
      let usart := { usart with command := decode_command val }
      let usart := { usart with rts := usart.command.rts }
      let usart := { usart with dtr := usart.command.dtr }
      let usart := if usart.command.er then error_clear usart else usart
      if usart.command.ir then
        let usart := error_clear usart
        let usart := { usart with mode_st := i8251_mode_enum_t.I8251_MODE_INSTR }
        let usart :=
          { usart with status := { usart.status with rxrdy := false, txrdy := true, txe := true } }
        { usart with
          tx_shift := { bits := 0, bits_len := 0 }
          tx_pin := 1
          tx_clk_cnt := 0
          rx_clk_cnt := 0
          rx_busy := false
          rx_shift := { bits := 0, bits_len := 0 }
          cts := true
          dsr := true }
      else usart
    | i8251_mode_enum_t.I8251_MODE_LEN => usart

/-- The function `i8251_init`. -/
def i8251_init : i8251_usart_t :=
  { cts := true
    dsr := true
    rts := false
    dtr := false
    format := i8251_format_t.I8251_ASYNC
    mode_st := i8251_mode_enum_t.I8251_MODE_INSTR
    mode := { b0 := 0, b1 := 0, b2 := 0, b3 := false, b4 := false }
    command :=
      { texn := false, dtr := false, rxe := false, sbrk := false
        er := false, rts := false, ir := false, eh := false }
    status :=
      { txrdy := true, rxrdy := false, txe := true, pe := false
        oe := false, fe := false, syndet := false, dsr := false }
    rx_data := 0
    tx_data := 0
    sync_char1 := 0
    sync_char2 := 0
    tx_shift := { bits := 0, bits_len := 0 }
    rx_shift := { bits := 0, bits_len := 0 }
    tx_pin := 1
    tx_clk_cnt := 0
    rx_clk_cnt := 0
    rx_busy := false }

/-! ## Vocabulary of the properties -/

/-- The local `data_len` of the receive path: the character length, capped at 8. -/
def async_data_len (usart : i8251_usart_t) : Nat :=
  if usart.mode.asynchronous_mode.char_len > 8 then 8
  else usart.mode.asynchronous_mode.char_len

/-- The local `stop_len` of the receive path: the stop-bit count, 0 taken as 1. -/
def async_stop_len (usart : i8251_usart_t) : Nat :=
  if usart.mode.asynchronous_mode.stop_len = 0 then 1
  else usart.mode.asynchronous_mode.stop_len

/-- The frame `sh` that a call `i8251_tick_rx usart rxd` examines once it has
taken its sample: the receive shifter with the sampled bit appended. -/
def rx_frame (usart : i8251_usart_t) (rxd : Nat) : Nat :=
  (rx_sample usart.rx_shift rxd).bits

/-- The call `i8251_tick_rx usart rxd` takes the sample that completes a frame:
the receiver is enabled, asynchronous and mid-frame, the divider counter
reaches the divisor on this call, and the shifter with the new sample holds
the full frame length. -/
def completes_frame (usart : i8251_usart_t) (rxd : Nat) : Prop :=
  usart.command.rxe = true ∧ usart.format = i8251_format_t.I8251_ASYNC ∧
  usart.rx_busy = true ∧
  i8251_div_async usart ≤ (usart.rx_clk_cnt + 1) % 256 ∧
  i8251_async_total_bits usart ≤ (rx_sample usart.rx_shift rxd).bits_len

instance (usart : i8251_usart_t) (rxd : Nat) : Decidable (completes_frame usart rxd) := by
  unfold completes_frame; infer_instance

/-- Number of 1 bits among the low `width` bits of `data`. -/
def ones_below (data width : Nat) : Nat :=
  ((List.range width).filter (fun i => data.testBit i)).length

/-- One call on the device, or one change of an externally driven input. -/
inductive i8251_op where
  | tick_tx
  | tick_rx (rxd : Nat)
  | read (control_data : Bool)
  | write (control_data : Bool) (data : Nat)
  | drive_cts (level : Bool)
  | drive_dsr (level : Bool)
  deriving DecidableEq, Repr

/-- The state after one operation. -/
def apply_op (usart : i8251_usart_t) : i8251_op → i8251_usart_t
  | i8251_op.tick_tx => i8251_tick_tx usart
  | i8251_op.tick_rx rxd => i8251_tick_rx usart rxd
  | i8251_op.read control_data => (i8251_read usart control_data).2
  | i8251_op.write control_data data => i8251_write usart control_data data
  | i8251_op.drive_cts level => { usart with cts := level }
  | i8251_op.drive_dsr level => { usart with dsr := level }

/-- The state after a sequence of operations, first operation first. -/
def run_ops (usart : i8251_usart_t) (ops : List i8251_op) : i8251_usart_t :=
  ops.foldl apply_op usart

/-- The break condition on the line and the transmit flags. -/
def break_held (usart : i8251_usart_t) : Prop :=
  usart.tx_pin = 0 ∧ usart.status.txrdy = false ∧ usart.status.txe = false

/-- One iteration of the round-trip loop on a transmitter and a receiver:
`i8251_tick_tx` on the transmitter, then `i8251_tick_rx` on the receiver with
the transmitter's `i8251_tx_line`. -/
def link_step (p : i8251_usart_t × i8251_usart_t) : i8251_usart_t × i8251_usart_t :=
  let tx := i8251_tick_tx p.1
  (tx, i8251_tick_rx p.2 (i8251_tx_line tx))

/-- The transmitter of the round trip: mode byte 0x7E, command 0x01, data `d`. -/
def link_tx (d : Nat) : i8251_usart_t :=
  i8251_write (i8251_write (i8251_write i8251_init true 0x7E) true 0x01) false d

/-- The receiver of the round trip: mode byte 0x7E, command 0x04. -/
def link_rx : i8251_usart_t :=
  i8251_write (i8251_write i8251_init true 0x7E) true 0x04

/-- The receiver after the 176 iterations of the round-trip loop. -/
def link_received (d : Nat) : i8251_usart_t :=
  ((link_step^[176]) (link_tx d, link_rx)).2

/-- The transmitter of the round trip before its data write. -/
def link_tx_base : i8251_usart_t :=
  i8251_write (i8251_write i8251_init true 0x7E) true 0x01

/-- The frame that the transmitter of the round trip loads for data `d`. -/
def link_bits (d : Nat) : Nat := (link_tx d).tx_shift.bits

/-- The transmitter of the round trip after `16 * q + r` ticks, in closed form. -/
def tx_at (d q r : Nat) : i8251_usart_t :=
  { link_tx_base with
    tx_data := d
    tx_clk_cnt := r
    tx_shift := { bits := link_bits d >>> q, bits_len := 11 - q }
    tx_pin := if q = 0 then 1 else if (link_bits d >>> (q - 1)) &&& 1 ≠ 0 then 1 else 0
    status := { link_tx_base.status with txrdy := decide (q = 11), txe := decide (q = 11) } }

/-- The receiver of the round trip in mid-frame: `q` bits of the frame
sampled, divider counter `r`. -/
def rx_mid (d q r : Nat) : i8251_usart_t :=
  { link_rx with
    rx_busy := true, rx_clk_cnt := r
    rx_shift := { bits := link_bits d % 2 ^ q, bits_len := q } }

/-- The receiver of the round trip holding the received byte `d`. -/
def rx_done (d : Nat) : i8251_usart_t :=
  { link_rx with rx_data := d, status := { link_rx.status with rxrdy := true } }

/-- The receiver of the round trip after `16 * q + r` iterations, in closed form. -/
def rx_at (d q r : Nat) : i8251_usart_t :=
  if q = 0 then link_rx
  else if q < 11 then rx_mid d q r
  else rx_done d

/-- The pair of devices of the round trip after `16 * q + r` iterations. -/
def link_at (d q r : Nat) : i8251_usart_t × i8251_usart_t := (tx_at d q r, rx_at d q r)

/-- A receiver configured by mode byte 0x7D (asynchronous, divisor 1, 8 data
bits, even parity, 1 stop bit) and command 0x04, after a start edge and the
nine samples 1,0,0,0,0,0,0,0 (data 0x01) and 0 (parity). -/
def rx_before_stop : i8251_usart_t :=
  (fun u => i8251_tick_rx u 0)^[8]
    (i8251_tick_rx
      (i8251_tick_rx (i8251_write (i8251_write i8251_init true 0x7D) true 0x04) 0) 1)

/-- The receiver `rx_before_stop` after its stop bit, holding the unread byte
0x01, then after the start edge of a second frame and nine samples of 1. -/
def rx_second_frame : i8251_usart_t :=
  (fun u => i8251_tick_rx u 1)^[9] (i8251_tick_rx (i8251_tick_rx rx_before_stop 1) 0)

/-- The state `rx_before_stop` with a receive shifter whose recorded start bit
(bit 0) is 1. -/
def rx_bad_start : i8251_usart_t :=
  { rx_before_stop with rx_shift := { bits := 1, bits_len := 10 } }

/-- A device configured by mode byte 0x7E and command 0x09 (transmit-enable and
send-break). -/
def tx_in_break : i8251_usart_t :=
  i8251_write (i8251_write i8251_init true 0x7E) true 0x09

/-- The integer value of a configuration stage in the enum `i8251_mode_enum_t`. -/
def stage_rank : i8251_mode_enum_t → Nat
  | i8251_mode_enum_t.I8251_MODE_INSTR => 0
  | i8251_mode_enum_t.I8251_SYNC_CHAR_1 => 1
  | i8251_mode_enum_t.I8251_SYNC_CHAR_2 => 2
  | i8251_mode_enum_t.I8251_COMMAND_INSTR => 3
  | i8251_mode_enum_t.I8251_MODE_LEN => 4

/-- The operation is a control-channel write made in AwaitingCommand whose byte
has bit 4 (error-reset) or bit 6 (internal-reset) set. -/
def clears_errors (usart : i8251_usart_t) (o : i8251_op) : Prop :=
  ∃ b, o = i8251_op.write true b ∧
    usart.mode_st = i8251_mode_enum_t.I8251_COMMAND_INSTR ∧
    (b.testBit 4 = true ∨ b.testBit 6 = true)

/-- The transmitter `usart`, whose shifter holds `n` bits, after `k ≤ n` of
them have been shifted out, with divider counter `r`: the closed form of the
state that `i8251_tick_tx` produces from `usart`. -/
def tx_shifted (usart : i8251_usart_t) (k r : Nat) : i8251_usart_t :=
  { usart with
    tx_clk_cnt := r
    tx_shift :=
      { bits := usart.tx_shift.bits >>> k, bits_len := usart.tx_shift.bits_len - k }
    tx_pin :=
      if k = 0 then usart.tx_pin
      else if k = usart.tx_shift.bits_len then 1
      else if (usart.tx_shift.bits >>> (k - 1)) &&& 1 ≠ 0 then 1
      else 0
    status :=
      if k = 0 then usart.status
      else if k = usart.tx_shift.bits_len then { usart.status with txrdy := true, txe := true }
      else usart.status }

/-- The transmitter `usart` after `j` calls of `i8251_tick_tx` at divisor `D`. -/
def tx_after (usart : i8251_usart_t) (D j : Nat) : i8251_usart_t :=
  tx_shifted usart (min usart.tx_shift.bits_len (j / D)) (j % D)

/-- The shifter bound together with the bound on the stored stop-bit count that
keeps it. -/
def shifters_bounded (usart : i8251_usart_t) : Prop :=
  usart.tx_shift.bits_len ≤ 16 ∧ usart.rx_shift.bits_len ≤ 16 ∧
  (usart.format = i8251_format_t.I8251_ASYNC → usart.mode.asynchronous_mode.stop_len ≤ 2)

/-- The receive-idle invariant: idle means divider counter 0 and an empty
shifter; mid-frame means a shifter with at least one bit whose bit 0 is 0. -/
def rx_idle_invariant (usart : i8251_usart_t) : Prop :=
  (usart.rx_busy = false →
    usart.rx_clk_cnt = 0 ∧ usart.rx_shift = { bits := 0, bits_len := 0 }) ∧
  (usart.rx_busy = true →
    1 ≤ usart.rx_shift.bits_len ∧ usart.rx_shift.bits.testBit 0 = false)

/-- A transmitter in Synchronous format: mode byte 0x0C (8 data bits, no
parity, two sync characters), sync characters 0x16 and 0x16, command 0x01
(transmit-enable), then data byte 0x00 written on the data channel. -/
def sync_tx : i8251_usart_t :=
  i8251_write
    (i8251_write
      (i8251_write (i8251_write (i8251_write i8251_init true 0x0C) true 0x16) true 0x16)
      true 0x01)
    false 0x00

/-- The transmitter `sync_tx` after seven calls of `i8251_tick_tx`: one bit of
the character is left in the shifter. -/
def sync_tx_last : i8251_usart_t := (i8251_tick_tx^[7]) sync_tx

/-! ## Bit-level lemmas -/

theorem c_bool_shift_and_one (n k : Nat) : c_bool ((n >>> k) &&& 1) = n.testBit k := by
  simp [c_bool, Nat.testBit, Nat.and_comm]

theorem and_three_lt (n : Nat) : n &&& 3 < 4 := by
  have := @Nat.and_lt_two_pow n 3 2 (by norm_num)
  simpa using this

theorem decode_command_testBit (b : Nat) :
    decode_command b =
      { texn := b.testBit 0, dtr := b.testBit 1, rxe := b.testBit 2, sbrk := b.testBit 3
        er := b.testBit 4, rts := b.testBit 5, ir := b.testBit 6, eh := b.testBit 7 } := by
  simp only [decode_command, c_bool_shift_and_one]

theorem len_mask_eq (L : Nat) (hL : L ≤ 8) : len_mask L = 2 ^ L - 1 := by
  unfold len_mask
  interval_cases L <;> decide

theorem async_data_len_le (usart : i8251_usart_t) : async_data_len usart ≤ 8 := by
  unfold async_data_len
  split <;> omega

theorem mask_twice (x L : Nat) (hL : L ≤ 8) :
    ((((x &&& len_mask L) % 256) &&& len_mask L) % 256) = x % 2 ^ L := by
  rw [len_mask_eq L hL, Nat.and_pow_two_sub_one_eq_mod, Nat.and_pow_two_sub_one_eq_mod]
  have h1 : x % 2 ^ L < 2 ^ L := Nat.mod_lt _ (by positivity)
  have h2 : 2 ^ L ≤ 2 ^ 8 := Nat.pow_le_pow_right (by norm_num) hL
  have h3 : x % 2 ^ L % 256 = x % 2 ^ L := Nat.mod_eq_of_lt (by omega)
  rw [h3, Nat.mod_mod, h3]

theorem stop_scan_iff (sh base : Nat) : ∀ n i : Nat,
    stop_scan sh base n i = true ↔ ∀ j, j < n → sh.testBit (base + i + j) = true := by
  intro n
  induction n with
  | zero => intro i; simp [stop_scan]
  | succ n ih =>
    intro i
    simp only [stop_scan]
    have hb : ((sh >>> (base + i)) &&& 1 = 0) ↔ sh.testBit (base + i) = false := by
      simp [Nat.testBit, Nat.and_comm]
    by_cases h0 : sh.testBit (base + i) = true
    · have : ¬ ((sh >>> (base + i)) &&& 1 = 0) := by rw [hb]; simp [h0]
      rw [if_neg this, ih]
      constructor
      · intro h j hj
        rcases j with _ | j
        · simpa using h0
        · have := h j (by omega)
          rw [show base + i + (j + 1) = base + (i + 1) + j by omega]
          exact this
      · intro h j hj
        have := h (j + 1) (by omega)
        rw [show base + (i + 1) + j = base + i + (j + 1) by omega]
        exact this
    · have h0f : sh.testBit (base + i) = false := by simpa using h0
      rw [if_pos (hb.mpr h0f)]
      constructor
      · intro h; cases h
      · intro h
        have := h 0 (by omega)
        simp [h0f] at this

set_option maxRecDepth 100000 in
theorem parity_bit_table : ∀ d : Fin 256, ∀ w : Fin 4,
    ((ones_below d.val (w.val + 5) + c_int (parity_bit d.val (w.val + 5) true)) % 2 = 0) ∧
    ((ones_below d.val (w.val + 5) + c_int (parity_bit d.val (w.val + 5) false)) % 2 = 1) ∧
    (∀ i : Fin 8, i.val < w.val + 5 →
      parity_bit (d.val ^^^ (1 <<< i.val)) (w.val + 5) true
        = !parity_bit d.val (w.val + 5) true) ∧
    (∀ i : Fin 8, i.val < w.val + 5 →
      parity_bit (d.val ^^^ (1 <<< i.val)) (w.val + 5) false
        = !parity_bit d.val (w.val + 5) false) ∧
    parity_bit d.val (w.val + 5) true
      = parity_bit (d.val % 2 ^ (w.val + 5)) (w.val + 5) true ∧
    parity_bit d.val (w.val + 5) false
      = parity_bit (d.val % 2 ^ (w.val + 5)) (w.val + 5) false := by
  decide!

/-! ## Case lemmas for the operations -/

theorem tick_tx_wait (usart : i8251_usart_t)
    (htexn : usart.command.texn = true) (hsbrk : usart.command.sbrk = false)
    (hfmt : usart.format = i8251_format_t.I8251_ASYNC) (hcts : usart.cts = true)
    (hdiv : (usart.tx_clk_cnt + 1) % 256 < i8251_div_async usart) :
    i8251_tick_tx usart = { usart with tx_clk_cnt := (usart.tx_clk_cnt + 1) % 256 } := by
  simp only [i8251_div_async] at hdiv
  unfold i8251_tick_tx
  simp only [htexn, hsbrk, hfmt, hcts, Bool.not_true, Bool.false_eq_true, if_false, if_true, hdiv]

theorem tick_tx_shift (usart : i8251_usart_t)
    (htexn : usart.command.texn = true) (hsbrk : usart.command.sbrk = false)
    (hgate : usart.format ≠ i8251_format_t.I8251_ASYNC ∨
      (usart.cts = true ∧ i8251_div_async usart ≤ (usart.tx_clk_cnt + 1) % 256)) :
    i8251_tick_tx usart = tx_shift_step { usart with tx_clk_cnt := 0 } := by
  unfold i8251_tick_tx
  simp only [htexn, hsbrk, Bool.not_true, Bool.false_eq_true, if_false]
  by_cases hfmt : usart.format = i8251_format_t.I8251_ASYNC
  · rcases hgate with h | ⟨hcts, hdiv⟩
    · exact absurd hfmt h
    · simp only [i8251_div_async] at hdiv
      simp only [hfmt, hcts, if_true, Bool.not_true, Bool.false_eq_true, if_false,
        Nat.not_lt.mpr hdiv]
  · simp only [hfmt, if_false]

theorem tx_shift_step_nonempty (usart : i8251_usart_t) (h : usart.tx_shift.bits_len ≠ 0) :
    tx_shift_step usart =
      { usart with
        tx_pin :=
          if usart.tx_shift.bits_len - 1 = 0 then 1
          else if usart.tx_shift.bits &&& 1 ≠ 0 then 1 else 0
        tx_shift := { bits := usart.tx_shift.bits >>> 1, bits_len := usart.tx_shift.bits_len - 1 }
        status :=
          if usart.tx_shift.bits_len - 1 = 0 then
            { usart.status with txrdy := true, txe := true }
          else usart.status } := by
  unfold tx_shift_step
  simp only [h, if_false]
  split <;> simp

theorem tick_rx_disabled (usart : i8251_usart_t) (rxd : Nat)
    (h : usart.command.rxe = false ∨ usart.format ≠ i8251_format_t.I8251_ASYNC) :
    i8251_tick_rx usart rxd =
      { usart with rx_clk_cnt := 0, rx_busy := false, rx_shift := { bits := 0, bits_len := 0 } } := by
  unfold i8251_tick_rx
  rcases h with h | h
  · simp only [h, Bool.not_false, if_true]
  · cases hr : usart.command.rxe
    · simp only [Bool.not_false, if_true]
    · simp only [Bool.not_true, Bool.false_eq_true, if_false, ne_eq, h, not_false_eq_true, if_true]

theorem tick_rx_idle (usart : i8251_usart_t) (rxd : Nat)
    (hrxe : usart.command.rxe = true) (hfmt : usart.format = i8251_format_t.I8251_ASYNC)
    (hbusy : usart.rx_busy = false) :
    i8251_tick_rx usart rxd =
      if rxd = 0 then
        { usart with rx_clk_cnt := 0, rx_busy := true, rx_shift := { bits := 0, bits_len := 1 } }
      else
        { usart with rx_clk_cnt := 0, rx_shift := { bits := 0, bits_len := 0 } } := by
  unfold i8251_tick_rx
  simp only [hrxe, hfmt, hbusy, Bool.not_true, Bool.not_false, Bool.false_eq_true, if_false,
    if_true, ne_eq, not_true_eq_false]
  split <;> simp

theorem tick_rx_wait (usart : i8251_usart_t) (rxd : Nat)
    (hrxe : usart.command.rxe = true) (hfmt : usart.format = i8251_format_t.I8251_ASYNC)
    (hbusy : usart.rx_busy = true)
    (hdiv : (usart.rx_clk_cnt + 1) % 256 < i8251_div_async usart) :
    i8251_tick_rx usart rxd = { usart with rx_clk_cnt := (usart.rx_clk_cnt + 1) % 256 } := by
  simp only [i8251_div_async] at hdiv
  unfold i8251_tick_rx
  simp only [hrxe, hfmt, hbusy, Bool.not_true, Bool.false_eq_true, if_false, ne_eq,
    not_true_eq_false, hdiv, if_true]

theorem tick_rx_sample (usart : i8251_usart_t) (rxd : Nat)
    (hrxe : usart.command.rxe = true) (hfmt : usart.format = i8251_format_t.I8251_ASYNC)
    (hbusy : usart.rx_busy = true)
    (hdiv : i8251_div_async usart ≤ (usart.rx_clk_cnt + 1) % 256)
    (hneed : (rx_sample usart.rx_shift rxd).bits_len < i8251_async_total_bits usart) :
    i8251_tick_rx usart rxd =
      { usart with rx_clk_cnt := 0, rx_shift := rx_sample usart.rx_shift rxd } := by
  simp only [i8251_div_async, i8251_async_total_bits] at hdiv hneed
  unfold i8251_tick_rx
  simp only [hrxe, hfmt, hbusy, Bool.not_true, Bool.false_eq_true, if_false, ne_eq,
    not_true_eq_false, Nat.not_lt.mpr hdiv, hneed, if_true]

theorem tick_rx_completes (usart : i8251_usart_t) (rxd : Nat) (h : completes_frame usart rxd) :
    i8251_tick_rx usart rxd =
      { (if rx_frame usart rxd &&& 1 ≠ 0 then
            { usart with
              rx_clk_cnt := 0, rx_shift := rx_sample usart.rx_shift rxd
              status := { usart.status with fe := true } }
          else
            i8251_rx_complete_async
              { usart with rx_clk_cnt := 0, rx_shift := rx_sample usart.rx_shift rxd }
              (((rx_frame usart rxd >>> 1) &&& len_mask (async_data_len usart)) % 256)
              (if usart.mode.asynchronous_mode.pen then
                (if (rx_frame usart rxd >>> (1 + async_data_len usart)) &&& 1 ≠ 0 then true
                 else false)
               else false)
              (stop_scan (rx_frame usart rxd)
                ((1 + async_data_len usart + c_int usart.mode.asynchronous_mode.pen) % 256)
                (async_stop_len usart) 0)) with
        rx_busy := false, rx_shift := { bits := 0, bits_len := 0 } } := by
  obtain ⟨hrxe, hfmt, hbusy, hdiv, hneed⟩ := h
  simp only [i8251_div_async, i8251_async_total_bits] at hdiv hneed
  unfold i8251_tick_rx
  simp only [hrxe, hfmt, hbusy, rx_frame, async_data_len, async_stop_len]
  simp only [Bool.not_true, Bool.false_eq_true, if_false, ne_eq, not_true_eq_false,
    Nat.not_lt.mpr hdiv, Nat.not_lt.mpr hneed, Nat.shiftRight_zero]
  split <;> simp

/-- Every call of `i8251_tick_rx` falls under one of the five case lemmas. -/
theorem tick_rx_cases (usart : i8251_usart_t) (rxd : Nat) :
    (usart.command.rxe = false ∨ usart.format ≠ i8251_format_t.I8251_ASYNC) ∨
    (usart.command.rxe = true ∧ usart.format = i8251_format_t.I8251_ASYNC ∧
      usart.rx_busy = false) ∨
    (usart.command.rxe = true ∧ usart.format = i8251_format_t.I8251_ASYNC ∧
      usart.rx_busy = true ∧ (usart.rx_clk_cnt + 1) % 256 < i8251_div_async usart) ∨
    (usart.command.rxe = true ∧ usart.format = i8251_format_t.I8251_ASYNC ∧
      usart.rx_busy = true ∧ i8251_div_async usart ≤ (usart.rx_clk_cnt + 1) % 256 ∧
      (rx_sample usart.rx_shift rxd).bits_len < i8251_async_total_bits usart) ∨
    completes_frame usart rxd := by
  unfold completes_frame
  cases usart.command.rxe <;> cases usart.rx_busy <;>
    by_cases hf : usart.format = i8251_format_t.I8251_ASYNC <;>
    by_cases hd : (usart.rx_clk_cnt + 1) % 256 < i8251_div_async usart <;>
    by_cases hn : (rx_sample usart.rx_shift rxd).bits_len < i8251_async_total_bits usart <;>
    simp [hf, hd, hn] <;> omega

theorem rx_complete_tx_side (usart : i8251_usart_t) (data : Nat) (p s : Bool) :
    (i8251_rx_complete_async usart data p s).command = usart.command ∧
    (i8251_rx_complete_async usart data p s).tx_pin = usart.tx_pin ∧
    (i8251_rx_complete_async usart data p s).status.txrdy = usart.status.txrdy ∧
    (i8251_rx_complete_async usart data p s).status.txe = usart.status.txe := by
  unfold i8251_rx_complete_async
  simp only
  split_ifs <;> simp

theorem tick_rx_tx_side (usart : i8251_usart_t) (rxd : Nat) :
    (i8251_tick_rx usart rxd).command = usart.command ∧
    (i8251_tick_rx usart rxd).tx_pin = usart.tx_pin ∧
    (i8251_tick_rx usart rxd).status.txrdy = usart.status.txrdy ∧
    (i8251_tick_rx usart rxd).status.txe = usart.status.txe := by
  rcases tick_rx_cases usart rxd with h | ⟨h1, h2, h3⟩ | ⟨h1, h2, h3, h4⟩ | ⟨h1, h2, h3, h4, h5⟩ | h
  · rw [tick_rx_disabled usart rxd h]
    simp
  · rw [tick_rx_idle usart rxd h1 h2 h3]
    split <;> simp
  · rw [tick_rx_wait usart rxd h1 h2 h3 h4]
    simp
  · rw [tick_rx_sample usart rxd h1 h2 h3 h4 h5]
    simp
  · rw [tick_rx_completes usart rxd h]
    split
    · simp
    · simp [rx_complete_tx_side]

theorem write_data_tx_side (usart : i8251_usart_t) (data : Nat) :
    (i8251_write usart false data).command = usart.command ∧
    (i8251_write usart false data).tx_pin = usart.tx_pin ∧
    (usart.status.txrdy = false → (i8251_write usart false data).status.txrdy = false) ∧
    (usart.status.txe = false → (i8251_write usart false data).status.txe = false) := by
  unfold i8251_write
  simp only [Bool.not_false, if_true]
  split_ifs <;> simp

theorem write_data_config (usart : i8251_usart_t) (data : Nat) :
    (i8251_write usart false data).format = usart.format ∧
    (i8251_write usart false data).command = usart.command ∧
    (i8251_write usart false data).mode_st = usart.mode_st ∧
    (usart.mode.asynchronous_mode.stop_len ≠ 0 →
      (i8251_write usart false data).mode = usart.mode) := by
  unfold i8251_write
  simp only [Bool.not_false, if_true]
  split_ifs <;> simp_all

theorem break_step (usart : i8251_usart_t) (o : i8251_op)
    (htexn : usart.command.texn = true) (hsbrk : usart.command.sbrk = true)
    (ho : ∀ data, o ≠ i8251_op.write true data) :
    (apply_op usart o).command = usart.command ∧
    (o = i8251_op.tick_tx → break_held (apply_op usart o)) ∧
    (break_held usart → break_held (apply_op usart o)) := by
  cases o with
  | tick_tx =>
    simp [apply_op, i8251_tick_tx, htexn, hsbrk, break_held]
  | tick_rx rxd =>
    have h := tick_rx_tx_side usart rxd
    simp only [apply_op, break_held, h.1, h.2.1, h.2.2.1, h.2.2.2]
    simp
  | read control_data =>
    cases control_data <;> simp [apply_op, i8251_read, break_held]
  | write control_data data =>
    cases control_data with
    | true => exact absurd rfl (ho data)
    | false =>
      have h := write_data_tx_side usart data
      refine ⟨h.1, by simp, ?_⟩
      intro hb
      exact ⟨by rw [apply_op, h.2.1]; exact hb.1, h.2.2.1 hb.2.1, h.2.2.2 hb.2.2⟩
  | drive_cts level => simp [apply_op, break_held]
  | drive_dsr level => simp [apply_op, break_held]

theorem break_run (ops : List i8251_op) : ∀ (usart : i8251_usart_t),
    usart.command.texn = true → usart.command.sbrk = true →
    (∀ o ∈ ops, ∀ data, o ≠ i8251_op.write true data) →
    (break_held usart ∨ i8251_op.tick_tx ∈ ops) →
    break_held (run_ops usart ops) := by
  induction ops with
  | nil =>
    intro usart _ _ _ h
    rcases h with h | h
    · exact h
    · cases h
  | cons o ops ih =>
    intro usart htexn hsbrk hops h
    have hstep := break_step usart o htexn hsbrk (hops o (List.mem_cons_self o ops))
    have hrun : run_ops usart (o :: ops) = run_ops (apply_op usart o) ops := rfl
    rw [hrun]
    apply ih (apply_op usart o) (by rw [hstep.1]; exact htexn) (by rw [hstep.1]; exact hsbrk)
      (fun o2 ho2 => hops o2 (List.mem_cons_of_mem o ho2))
    rcases h with h | h
    · exact Or.inl (hstep.2.2 h)
    · rcases List.mem_cons.mp h with h | h
      · exact Or.inl (hstep.2.1 h.symm)
      · exact Or.inr h

theorem read_control_bits (usart : i8251_usart_t) :
    (i8251_read usart true).1.testBit 0 = usart.status.txrdy ∧
    (i8251_read usart true).1.testBit 1 = usart.status.rxrdy ∧
    (i8251_read usart true).1.testBit 2 = usart.status.txe ∧
    (i8251_read usart true).1.testBit 3 = usart.status.pe ∧
    (i8251_read usart true).1.testBit 4 = usart.status.oe ∧
    (i8251_read usart true).1.testBit 5 = usart.status.fe ∧
    (i8251_read usart true).1.testBit 6 = usart.status.syndet ∧
    (i8251_read usart true).1.testBit 7 = usart.dsr ∧
    (i8251_read usart true).1 < 256 := by
  obtain ⟨⟨cts, dsr, rts, dtr⟩, format, mode_st, mode, command,
    ⟨txrdy, rxrdy, txe, pe, oe, fe, syndet, sdsr⟩, _⟩ := usart
  simp only [i8251_read]
  cases txrdy <;> cases rxrdy <;> cases txe <;> cases pe <;> cases oe <;> cases fe <;>
    cases syndet <;> cases dsr <;> simp [c_int] <;> decide

theorem rx_complete_store (usart : i8251_usart_t) (data : Nat) (parity_rx stop_ok : Bool)
    (hrxe : usart.command.rxe = true) (hrdy : usart.status.rxrdy = false) :
    i8251_rx_complete_async usart data parity_rx stop_ok =
      { usart with
        rx_data := (data &&& len_mask (async_data_len usart)) % 256
        status :=
          { usart.status with
            rxrdy := true
            pe := usart.status.pe ||
              (usart.mode.asynchronous_mode.pen &&
                (parity_bit ((data &&& len_mask (async_data_len usart)) % 256)
                  (async_data_len usart) usart.mode.asynchronous_mode.ep != parity_rx))
            fe := usart.status.fe || !stop_ok } } := by
  unfold i8251_rx_complete_async async_data_len
  simp only [hrxe, hrdy, Bool.not_true, Bool.false_eq_true, if_false]
  cases usart.mode.asynchronous_mode.pen <;> cases stop_ok <;>
    cases (parity_bit
      ((data &&& len_mask (if usart.mode.asynchronous_mode.char_len > 8 then 8
        else usart.mode.asynchronous_mode.char_len)) % 256)
      (if usart.mode.asynchronous_mode.char_len > 8 then 8
        else usart.mode.asynchronous_mode.char_len) usart.mode.asynchronous_mode.ep != parity_rx) <;>
    simp

theorem rx_complete_fields (usart : i8251_usart_t) (rxd : Nat)
    (hframe : completes_frame usart rxd)
    (hstart : (rx_frame usart rxd).testBit 0 = false)
    (hrdy : usart.status.rxrdy = false) :
    (i8251_tick_rx usart rxd).rx_data = (rx_frame usart rxd >>> 1) % 2 ^ async_data_len usart ∧
    (i8251_tick_rx usart rxd).status.rxrdy = true ∧
    ((i8251_tick_rx usart rxd).status.pe = true ↔
      (usart.status.pe = true ∨
        (usart.mode.asynchronous_mode.pen = true ∧
          (rx_frame usart rxd).testBit (1 + async_data_len usart) ≠
            parity_bit ((rx_frame usart rxd >>> 1) % 2 ^ async_data_len usart)
              (async_data_len usart) usart.mode.asynchronous_mode.ep))) ∧
    ((i8251_tick_rx usart rxd).status.fe = true ↔
      (usart.status.fe = true ∨
        ∃ i, i < async_stop_len usart ∧
          (rx_frame usart rxd).testBit
            (1 + async_data_len usart + c_int usart.mode.asynchronous_mode.pen + i) = false)) ∧
    (i8251_tick_rx usart rxd).status.oe = usart.status.oe := by
  have hs : ¬ (rx_frame usart rxd &&& 1 ≠ 0) := by
    simpa [Nat.testBit, Nat.and_comm] using hstart
  have hL := async_data_len_le usart
  have hbase : (1 + async_data_len usart + c_int usart.mode.asynchronous_mode.pen) % 256
      = 1 + async_data_len usart + c_int usart.mode.asynchronous_mode.pen := by
    apply Nat.mod_eq_of_lt
    unfold c_int
    split <;> omega
  have hscan := stop_scan_iff (rx_frame usart rxd)
    (1 + async_data_len usart + c_int usart.mode.asynchronous_mode.pen) (async_stop_len usart) 0
  have hpar : (if (rx_frame usart rxd >>> (1 + async_data_len usart)) &&& 1 ≠ 0 then true
      else false) = (rx_frame usart rxd).testBit (1 + async_data_len usart) := by
    cases h : (rx_frame usart rxd).testBit (1 + async_data_len usart) <;>
      simp_all [Nat.testBit, Nat.and_comm]
  rw [tick_rx_completes usart rxd hframe, if_neg hs, hbase, hpar,
    rx_complete_store { usart with rx_clk_cnt := 0, rx_shift := rx_sample usart.rx_shift rxd }
      _ _ _ hframe.1 hrdy]
  have hdl : async_data_len
      { usart with rx_clk_cnt := 0, rx_shift := rx_sample usart.rx_shift rxd }
      = async_data_len usart := rfl
  simp only [hdl, mask_twice _ _ hL]
  refine ⟨trivial, trivial, ?_, ?_, trivial⟩
  · cases hpen : usart.mode.asynchronous_mode.pen
    · simp
    · simp only [if_true, Bool.true_and, Bool.or_eq_true, bne_iff_ne, ne_eq, true_and]
      constructor
      · rintro (h | h)
        · exact Or.inl h
        · exact Or.inr (fun e => h e.symm)
      · rintro (h | h)
        · exact Or.inl h
        · exact Or.inr (fun e => h e.symm)
  · simp only [Bool.or_eq_true, Bool.not_eq_true']
    constructor
    · rintro (h | h)
      · exact Or.inl h
      · right
        by_contra hcon
        have hall : ∀ j, j < async_stop_len usart →
            (rx_frame usart rxd).testBit
              (1 + async_data_len usart + c_int usart.mode.asynchronous_mode.pen + 0 + j)
              = true := by
          intro j hj
          by_contra hj2
          exact hcon ⟨j, hj, by simpa using hj2⟩
        rw [hscan.mpr hall] at h
        cases h
    · rintro (h | ⟨i, hi, hf⟩)
      · exact Or.inl h
      · right
        by_contra hcon
        have hsc : stop_scan (rx_frame usart rxd)
            (1 + async_data_len usart + c_int usart.mode.asynchronous_mode.pen)
            (async_stop_len usart) 0 = true := by simpa using hcon
        have := hscan.mp hsc i hi
        simp only [Nat.add_zero] at this
        rw [this] at hf
        cases hf

/-! ## The round trip, tick by tick -/

set_option maxRecDepth 100000 in
theorem link_tx_form : ∀ d : Nat, d < 256 → link_tx d = tx_at d 0 0 := by
  decide!

set_option maxRecDepth 100000 in
theorem link_bits_facts : ∀ d : Nat, d < 256 →
    link_bits d % 2 = 0 ∧
    (link_bits d >>> 10) &&& 1 = 1 ∧
    link_bits d % 2 ^ 11 = link_bits d ∧
    ((link_bits d >>> 1) &&& len_mask 8) % 256 = d ∧
    (if (link_bits d >>> (1 + 8)) &&& 1 ≠ 0 then true else false) = parity_bit d 8 true ∧
    stop_scan (link_bits d) 10 1 0 = true ∧
    ∀ q : Nat, q < 11 →
      (link_bits d % 2 ^ q |||
        ((if (if (link_bits d >>> q) &&& 1 ≠ 0 then 1 else 0) ≠ 0 then 1 else 0) <<< q) % 65536)
          % 65536 = link_bits d % 2 ^ (q + 1) := by
  decide!

theorem tx_at_wait (d q r : Nat) (hr : r < 15) :
    i8251_tick_tx (tx_at d q r) = tx_at d q (r + 1) := by
  have h : (r + 1) % 256 = r + 1 := Nat.mod_eq_of_lt (by omega)
  rw [tick_tx_wait (tx_at d q r) rfl rfl rfl rfl
    (by show (r + 1) % 256 < 16; omega)]
  show { tx_at d q r with tx_clk_cnt := (r + 1) % 256 } = tx_at d q (r + 1)
  rw [h]
  rfl

theorem tx_at_shift (d q : Nat) (hd : d < 256) (hq : q ≤ 10) :
    i8251_tick_tx (tx_at d q 15) = tx_at d (q + 1) 0 := by
  rw [tick_tx_shift (tx_at d q 15) rfl rfl (Or.inr ⟨rfl, by show (16 : Nat) ≤ (15 + 1) % 256; decide⟩),
    tx_shift_step_nonempty _ (by show 11 - q ≠ 0; omega)]
  have hb := (link_bits_facts d hd).2.1
  simp only [tx_at]
  by_cases h10 : q = 10
  · subst h10
    simp [hb, ← Nat.shiftRight_add]
  · have h1 : 11 - q - 1 ≠ 0 := by omega
    have h2 : q + 1 ≠ 11 := by omega
    simp [h1, h2, Nat.shiftRight_add]
    omega

theorem tx_line_at (d q r : Nat) :
    i8251_tx_line (tx_at d q r) =
      if q = 0 then 1 else if (link_bits d >>> (q - 1)) &&& 1 ≠ 0 then 1 else 0 := by
  simp only [i8251_tx_line, tx_at]
  split_ifs <;> simp_all

theorem rx_at_zero (d r : Nat) : rx_at d 0 r = link_rx := rfl

theorem rx_at_mid (d q r : Nat) (h0 : q ≠ 0) (h11 : q < 11) : rx_at d q r = rx_mid d q r := by
  simp only [rx_at, h0, h11, if_false, if_true]

theorem rx_at_idle (d r : Nat) :
    i8251_tick_rx (rx_at d 0 r) (i8251_tx_line (tx_at d 0 (r + 1))) = rx_at d 0 (r + 1) := by
  rw [tx_line_at, rx_at_zero, rx_at_zero, tick_rx_idle link_rx _ rfl rfl rfl]
  rfl

theorem rx_at_start (d : Nat) (hd : d < 256) :
    i8251_tick_rx (rx_at d 0 15) (i8251_tx_line (tx_at d 1 0)) = rx_at d 1 0 := by
  have hb := (link_bits_facts d hd).1
  have hline : i8251_tx_line (tx_at d 1 0) = 0 := by
    rw [tx_line_at]
    simp [Nat.and_one_is_mod, hb]
  rw [hline, rx_at_zero, tick_rx_idle link_rx _ rfl rfl rfl, rx_at_mid d 1 0 (by decide) (by decide)]
  simp [rx_mid, hb]

theorem rx_at_wait (d q r : Nat) (rxd : Nat) (h0 : q ≠ 0) (h11 : q < 11) (hr : r < 15) :
    i8251_tick_rx (rx_at d q r) rxd = rx_at d q (r + 1) := by
  have h : (r + 1) % 256 = r + 1 := Nat.mod_eq_of_lt (by omega)
  rw [rx_at_mid d q r h0 h11, rx_at_mid d q (r + 1) h0 h11,
    tick_rx_wait _ rxd rfl rfl rfl (by show (r + 1) % 256 < 16; omega)]
  simp [rx_mid, h]

theorem rx_mid_sample (d q : Nat) (hd : d < 256) (hq : q < 11) :
    rx_sample (rx_mid d q 15).rx_shift (i8251_tx_line (tx_at d (q + 1) 0))
      = { bits := link_bits d % 2 ^ (q + 1), bits_len := q + 1 } := by
  have hb := (link_bits_facts d hd).2.2.2.2.2.2 q hq
  have hlen : (q + 1) % 256 = q + 1 := Nat.mod_eq_of_lt (by omega)
  rw [tx_line_at]
  simp only [rx_mid, rx_sample, show q < 16 by omega, if_true, Nat.add_sub_cancel,
    show q + 1 ≠ 0 by omega, if_false, hb, hlen]

theorem rx_at_sample (d q : Nat) (hd : d < 256) (h0 : q ≠ 0) (h10 : q < 10) :
    i8251_tick_rx (rx_at d q 15) (i8251_tx_line (tx_at d (q + 1) 0)) = rx_at d (q + 1) 0 := by
  have hsample := rx_mid_sample d q hd (by omega)
  rw [rx_at_mid d q 15 h0 (by omega), rx_at_mid d (q + 1) 0 (by omega) (by omega),
    tick_rx_sample _ _ rfl rfl rfl (by show (16 : Nat) ≤ (15 + 1) % 256; decide)
      (by rw [hsample]; show q + 1 < 11; omega), hsample]
  rfl

theorem rx_at_complete (d : Nat) (hd : d < 256) :
    i8251_tick_rx (rx_at d 10 15) (i8251_tx_line (tx_at d 11 0)) = rx_at d 11 0 := by
  obtain ⟨hstart, _, hfull, hdata, hpar, hstop, _⟩ := link_bits_facts d hd
  have hsample : rx_sample (rx_mid d 10 15).rx_shift (i8251_tx_line (tx_at d 11 0))
      = { bits := link_bits d, bits_len := 11 } := by
    rw [rx_mid_sample d 10 hd (by decide), hfull]
  have hframe : rx_frame (rx_mid d 10 15) (i8251_tx_line (tx_at d 11 0)) = link_bits d := by
    rw [rx_frame, hsample]
  have hcomp : completes_frame (rx_mid d 10 15) (i8251_tx_line (tx_at d 11 0)) := by
    refine ⟨rfl, rfl, rfl, by show (16 : Nat) ≤ (15 + 1) % 256; decide, ?_⟩
    rw [hsample]
    show 11 ≤ 11
    omega
  have hs : ¬ (link_bits d &&& 1 ≠ 0) := by
    simp [Nat.and_one_is_mod, hstart]
  have hd8 : (d &&& len_mask 8) % 256 = d := by
    rw [len_mask_eq 8 (by decide), Nat.and_pow_two_sub_one_eq_mod]
    omega
  have hlen : async_data_len (rx_mid d 10 15) = 8 := rfl
  have hsl : async_stop_len (rx_mid d 10 15) = 1 := rfl
  have hpen : (rx_mid d 10 15).mode.asynchronous_mode.pen = true := rfl
  have hep : (rx_mid d 10 15).mode.asynchronous_mode.ep = true := rfl
  have hbase : (1 + 8 + c_int true) % 256 = 10 := rfl
  rw [rx_at_mid d 10 15 (by decide) (by decide), tick_rx_completes _ _ hcomp, hframe, if_neg hs,
    hlen, hsl, hpen, hbase, if_pos rfl, hdata, hpar, hstop,
    rx_complete_store _ _ _ _ rfl rfl]
  have hlen2 : async_data_len
      { rx_mid d 10 15 with
        rx_clk_cnt := 0
        rx_shift := rx_sample (rx_mid d 10 15).rx_shift (i8251_tx_line (tx_at d 11 0)) } = 8 := rfl
  rw [hlen2, hd8]
  have hep2 : link_rx.mode.asynchronous_mode.ep = true := by decide
  simp only [rx_at, rx_done, rx_mid, hep2, show ¬ (11 = 0) by decide,
    show ¬ (11 < 11) by decide, if_false]
  simp
  decide

theorem link_wait (d q r : Nat) (hq : q < 11) (hr : r < 15) :
    link_step (link_at d q r) = link_at d q (r + 1) := by
  simp only [link_step, link_at, tx_at_wait d q r hr]
  by_cases h0 : q = 0
  · subst h0
    rw [rx_at_idle]
  · rw [rx_at_wait d q r _ h0 hq hr]

theorem link_shift (d q : Nat) (hd : d < 256) (hq : q < 11) :
    link_step (link_at d q 15) = link_at d (q + 1) 0 := by
  simp only [link_step, link_at, tx_at_shift d q hd (by omega)]
  by_cases h0 : q = 0
  · subst h0
    rw [rx_at_start d hd]
  · by_cases h10 : q = 10
    · subst h10
      rw [rx_at_complete d hd]
    · rw [rx_at_sample d q hd h0 (by omega)]

theorem link_run_wait (d q : Nat) (hq : q < 11) : ∀ r, r ≤ 15 →
    (link_step^[r]) (link_at d q 0) = link_at d q r := by
  intro r
  induction r with
  | zero => intro _; rfl
  | succ r ih =>
    intro hr
    rw [Function.iterate_succ_apply', ih (by omega), link_wait d q r hq (by omega)]

theorem link_block (d q : Nat) (hd : d < 256) (hq : q < 11) :
    (link_step^[16]) (link_at d q 0) = link_at d (q + 1) 0 := by
  rw [Function.iterate_succ_apply', link_run_wait d q hq 15 (by omega), link_shift d q hd hq]

theorem link_blocks (d : Nat) (hd : d < 256) : ∀ q, q ≤ 11 →
    (link_step^[16 * q]) (link_at d 0 0) = link_at d q 0 := by
  intro q
  induction q with
  | zero => intro _; rfl
  | succ q ih =>
    intro hq
    rw [show 16 * (q + 1) = 16 + 16 * q by omega, Function.iterate_add_apply, ih (by omega),
      link_block d q hd (by omega)]

theorem link_received_eq (d : Nat) (hd : d < 256) : link_received d = rx_done d := by
  have h := link_blocks d hd 11 (by omega)
  have h0 : link_at d 0 0 = (link_tx d, link_rx) := by
    rw [link_at, ← link_tx_form d hd, rx_at_zero]
  rw [h0] at h
  show ((link_step^[176]) (link_tx d, link_rx)).2 = rx_done d
  rw [show (176 : Nat) = 16 * 11 by rfl, h]
  rfl

/-! ## Frame lemmas -/

theorem tick_tx_disabled (usart : i8251_usart_t) (htexn : usart.command.texn = false) :
    i8251_tick_tx usart = { usart with tx_pin := 1, tx_clk_cnt := 0 } := by
  unfold i8251_tick_tx
  simp only [htexn, Bool.not_false, if_true]

theorem tick_tx_break (usart : i8251_usart_t)
    (htexn : usart.command.texn = true) (hsbrk : usart.command.sbrk = true) :
    i8251_tick_tx usart =
      { usart with
        tx_pin := 0, status := { usart.status with txrdy := false, txe := false }
        tx_clk_cnt := 0 } := by
  unfold i8251_tick_tx
  simp only [htexn, hsbrk, Bool.not_true, Bool.false_eq_true, if_false, if_true]

theorem tick_tx_hold (usart : i8251_usart_t)
    (htexn : usart.command.texn = true) (hsbrk : usart.command.sbrk = false)
    (hfmt : usart.format = i8251_format_t.I8251_ASYNC) (hcts : usart.cts = false) :
    i8251_tick_tx usart =
      { usart with
        tx_pin := 1, status := { usart.status with txrdy := false, txe := false } } := by
  unfold i8251_tick_tx
  simp only [htexn, hsbrk, hfmt, hcts, Bool.not_true, Bool.not_false, Bool.false_eq_true,
    if_false, if_true]

theorem tx_shift_step_empty (usart : i8251_usart_t) (h : usart.tx_shift.bits_len = 0) :
    tx_shift_step usart =
      { usart with tx_pin := 1, status := { usart.status with txrdy := true, txe := true } } := by
  unfold tx_shift_step
  simp only [h, if_true]

/-- Every call of `i8251_tick_tx` falls under one of the five case lemmas. -/
theorem tick_tx_cases (usart : i8251_usart_t) :
    usart.command.texn = false ∨
    (usart.command.texn = true ∧ usart.command.sbrk = true) ∨
    (usart.command.texn = true ∧ usart.command.sbrk = false ∧
      usart.format = i8251_format_t.I8251_ASYNC ∧ usart.cts = false) ∨
    (usart.command.texn = true ∧ usart.command.sbrk = false ∧
      usart.format = i8251_format_t.I8251_ASYNC ∧ usart.cts = true ∧
      (usart.tx_clk_cnt + 1) % 256 < i8251_div_async usart) ∨
    (usart.command.texn = true ∧ usart.command.sbrk = false ∧
      (usart.format ≠ i8251_format_t.I8251_ASYNC ∨
        (usart.cts = true ∧ i8251_div_async usart ≤ (usart.tx_clk_cnt + 1) % 256))) := by
  cases usart.command.texn <;> cases usart.command.sbrk <;> cases usart.cts <;>
    by_cases hf : usart.format = i8251_format_t.I8251_ASYNC <;>
    by_cases hd : (usart.tx_clk_cnt + 1) % 256 < i8251_div_async usart <;>
    simp [hf, hd]
  omega

/-- The fields that `i8251_tick_tx` can change. -/
theorem tick_tx_frame (usart : i8251_usart_t) :
    ∃ pin cnt sh r e,
      i8251_tick_tx usart =
        { usart with
          tx_pin := pin, tx_clk_cnt := cnt, tx_shift := sh
          status := { usart.status with txrdy := r, txe := e } } := by
  rcases tick_tx_cases usart with h | ⟨h1, h2⟩ | ⟨h1, h2, h3, h4⟩ | ⟨h1, h2, h3, h4, h5⟩ |
    ⟨h1, h2, h3⟩
  · exact ⟨1, 0, usart.tx_shift, usart.status.txrdy, usart.status.txe, tick_tx_disabled usart h⟩
  · exact ⟨0, 0, usart.tx_shift, false, false, tick_tx_break usart h1 h2⟩
  · exact ⟨1, usart.tx_clk_cnt, usart.tx_shift, false, false, tick_tx_hold usart h1 h2 h3 h4⟩
  · exact ⟨usart.tx_pin, (usart.tx_clk_cnt + 1) % 256, usart.tx_shift, usart.status.txrdy,
      usart.status.txe, tick_tx_wait usart h1 h2 h3 h4 h5⟩
  · rw [tick_tx_shift usart h1 h2 h3]
    by_cases hl : usart.tx_shift.bits_len = 0
    · rw [tx_shift_step_empty { usart with tx_clk_cnt := 0 } hl]
      exact ⟨1, 0, usart.tx_shift, true, true, rfl⟩
    · rw [tx_shift_step_nonempty { usart with tx_clk_cnt := 0 } hl]
      by_cases hl1 : usart.tx_shift.bits_len - 1 = 0
      · refine ⟨1, 0, ⟨usart.tx_shift.bits >>> 1, usart.tx_shift.bits_len - 1⟩, true, true, ?_⟩
        simp [hl1]
      · refine ⟨if usart.tx_shift.bits &&& 1 ≠ 0 then 1 else 0, 0,
          ⟨usart.tx_shift.bits >>> 1, usart.tx_shift.bits_len - 1⟩,
          usart.status.txrdy, usart.status.txe, ?_⟩
        simp [hl1]

theorem rx_complete_cases (usart : i8251_usart_t) (data : Nat) (parity_rx stop_ok : Bool) :
    (usart.command.rxe = false ∧
      i8251_rx_complete_async usart data parity_rx stop_ok = usart) ∨
    (usart.command.rxe = true ∧ usart.status.rxrdy = true ∧
      i8251_rx_complete_async usart data parity_rx stop_ok =
        { usart with status := { usart.status with oe := true } }) ∨
    (usart.command.rxe = true ∧ usart.status.rxrdy = false ∧
      i8251_rx_complete_async usart data parity_rx stop_ok =
        { usart with
          rx_data := (data &&& len_mask (async_data_len usart)) % 256
          status :=
            { usart.status with
              rxrdy := true
              pe := usart.status.pe ||
                (usart.mode.asynchronous_mode.pen &&
                  (parity_bit ((data &&& len_mask (async_data_len usart)) % 256)
                    (async_data_len usart) usart.mode.asynchronous_mode.ep != parity_rx))
              fe := usart.status.fe || !stop_ok } }) := by
  cases hrxe : usart.command.rxe
  · left
    refine ⟨rfl, ?_⟩
    unfold i8251_rx_complete_async
    simp only [hrxe, Bool.not_false, if_true]
  · right
    cases hrdy : usart.status.rxrdy
    · right
      exact ⟨rfl, rfl, rx_complete_store usart data parity_rx stop_ok hrxe hrdy⟩
    · left
      refine ⟨rfl, rfl, ?_⟩
      unfold i8251_rx_complete_async
      simp only [hrxe, hrdy, Bool.not_true, Bool.false_eq_true, if_false, if_true]

/-- The fields that `i8251_tick_rx` can change; a set error flag stays set, and an
error flag is raised only by a frame-completing call. -/
theorem tick_rx_frame (usart : i8251_usart_t) (rxd : Nat) :
    ∃ cnt busy sh data rdy pe oe fe,
      i8251_tick_rx usart rxd =
        { usart with
          rx_clk_cnt := cnt, rx_busy := busy, rx_shift := sh, rx_data := data
          status := { usart.status with rxrdy := rdy, pe := pe, oe := oe, fe := fe } } ∧
      (usart.status.pe = true → pe = true) ∧
      (usart.status.oe = true → oe = true) ∧
      (usart.status.fe = true → fe = true) ∧
      (¬ completes_frame usart rxd →
        data = usart.rx_data ∧ rdy = usart.status.rxrdy ∧ pe = usart.status.pe ∧
        oe = usart.status.oe ∧ fe = usart.status.fe) := by
  rcases tick_rx_cases usart rxd with h | ⟨h1, h2, h3⟩ | ⟨h1, h2, h3, h4⟩ | ⟨h1, h2, h3, h4, h5⟩ | h
  · exact ⟨0, false, ⟨0, 0⟩, usart.rx_data, usart.status.rxrdy, usart.status.pe,
      usart.status.oe, usart.status.fe, tick_rx_disabled usart rxd h, id, id, id,
      fun _ => ⟨rfl, rfl, rfl, rfl, rfl⟩⟩
  · rw [tick_rx_idle usart rxd h1 h2 h3]
    by_cases hr : rxd = 0
    · exact ⟨0, true, ⟨0, 1⟩, usart.rx_data, usart.status.rxrdy, usart.status.pe,
        usart.status.oe, usart.status.fe, by simp [hr], id, id, id,
        fun _ => ⟨rfl, rfl, rfl, rfl, rfl⟩⟩
    · exact ⟨0, usart.rx_busy, ⟨0, 0⟩, usart.rx_data, usart.status.rxrdy, usart.status.pe,
        usart.status.oe, usart.status.fe, by simp [hr], id, id, id,
        fun _ => ⟨rfl, rfl, rfl, rfl, rfl⟩⟩
  · exact ⟨(usart.rx_clk_cnt + 1) % 256, usart.rx_busy, usart.rx_shift, usart.rx_data,
      usart.status.rxrdy, usart.status.pe, usart.status.oe, usart.status.fe,
      tick_rx_wait usart rxd h1 h2 h3 h4, id, id, id, fun _ => ⟨rfl, rfl, rfl, rfl, rfl⟩⟩
  · exact ⟨0, usart.rx_busy, rx_sample usart.rx_shift rxd, usart.rx_data,
      usart.status.rxrdy, usart.status.pe, usart.status.oe, usart.status.fe,
      tick_rx_sample usart rxd h1 h2 h3 h4 h5, id, id, id, fun _ => ⟨rfl, rfl, rfl, rfl, rfl⟩⟩
  · rw [tick_rx_completes usart rxd h]
    by_cases hs : rx_frame usart rxd &&& 1 ≠ 0
    · rw [if_pos hs]
      exact ⟨0, false, ⟨0, 0⟩, usart.rx_data, usart.status.rxrdy, usart.status.pe,
        usart.status.oe, true, rfl, id, id, fun _ => rfl, fun hn => absurd h hn⟩
    · rw [if_neg hs]
      rcases rx_complete_cases
        { usart with rx_clk_cnt := 0, rx_shift := rx_sample usart.rx_shift rxd }
        (((rx_frame usart rxd >>> 1) &&& len_mask (async_data_len usart)) % 256)
        (if usart.mode.asynchronous_mode.pen then
          (if (rx_frame usart rxd >>> (1 + async_data_len usart)) &&& 1 ≠ 0 then true
           else false)
         else false)
        (stop_scan (rx_frame usart rxd)
          ((1 + async_data_len usart + c_int usart.mode.asynchronous_mode.pen) % 256)
          (async_stop_len usart) 0) with ⟨hr, _⟩ | ⟨_, _, he⟩ | ⟨_, _, he⟩
      · exact absurd h.1 (by rw [show usart.command.rxe = false from hr]; simp)
      · rw [he]
        exact ⟨0, false, ⟨0, 0⟩, usart.rx_data, usart.status.rxrdy, usart.status.pe,
          true, usart.status.fe, rfl, id, fun _ => rfl, id, fun hn => absurd h hn⟩
      · rw [he]
        refine ⟨0, false, ⟨0, 0⟩, _, true, _, usart.status.oe, _, rfl, ?_, id, ?_,
          fun hn => absurd h hn⟩
        · intro hp
          simp [hp]
        · intro hf
          simp [hf]

theorem write_command_reset (usart : i8251_usart_t) (b : Nat)
    (hst : usart.mode_st = i8251_mode_enum_t.I8251_COMMAND_INSTR)
    (hb : b.testBit 6 = true) :
    i8251_write usart true b =
      { usart with
        cts := true
        dsr := true
        rts := b.testBit 5
        dtr := b.testBit 1
        mode_st := i8251_mode_enum_t.I8251_MODE_INSTR
        command := decode_command b
        status :=
          { usart.status with
            pe := false, oe := false, fe := false, rxrdy := false, txrdy := true, txe := true }
        tx_shift := { bits := 0, bits_len := 0 }
        rx_shift := { bits := 0, bits_len := 0 }
        tx_pin := 1
        tx_clk_cnt := 0
        rx_clk_cnt := 0
        rx_busy := false } := by
  simp only [i8251_write, hst, decode_command_testBit, hb, error_clear]
  cases b.testBit 4 <;> simp

theorem write_command_plain (usart : i8251_usart_t) (b : Nat)
    (hst : usart.mode_st = i8251_mode_enum_t.I8251_COMMAND_INSTR)
    (hb : b.testBit 6 = false) :
    i8251_write usart true b =
      { usart with
        rts := b.testBit 5
        dtr := b.testBit 1
        command := decode_command b
        status :=
          if b.testBit 4 then { usart.status with pe := false, oe := false, fe := false }
          else usart.status } := by
  simp only [i8251_write, hst, decode_command_testBit, hb, error_clear]
  cases b.testBit 4 <;> simp

theorem write_mode_sync (usart : i8251_usart_t) (b : Nat)
    (hst : usart.mode_st = i8251_mode_enum_t.I8251_MODE_INSTR) (hb : b &&& 3 = 0) :
    i8251_write usart true b =
      { usart with
        format := i8251_format_t.I8251_SYNC
        mode := store_synchronous_mode (decode_sync_mode b)
        mode_st := i8251_mode_enum_t.I8251_SYNC_CHAR_1 } := by
  simp only [i8251_write, hst, hb]
  simp

theorem write_mode_async (usart : i8251_usart_t) (b : Nat)
    (hst : usart.mode_st = i8251_mode_enum_t.I8251_MODE_INSTR) (hb : b &&& 3 ≠ 0) :
    ∃ m, i8251_write usart true b =
      { usart with
        format := i8251_format_t.I8251_ASYNC
        mode := store_asynchronous_mode m
        mode_st := i8251_mode_enum_t.I8251_COMMAND_INSTR } ∧
      m.char_len = (decode_async_mode b).char_len ∧ m.stop_len ≤ 2 ∧ 1 ≤ m.stop_len := by
  have h3 := and_three_lt (b >>> 6)
  by_cases h0 : (decode_async_mode b).stop_len = 0
  · refine ⟨{ decode_async_mode b with stop_len := 1 }, ?_, rfl,
      by show (1 : Nat) ≤ 2; decide, by show (1 : Nat) ≤ 1; decide⟩
    simp only [i8251_write, hst, hb]
    have : (store_asynchronous_mode (decode_async_mode b)).asynchronous_mode
        = decode_async_mode b := rfl
    simp [this, h0]
  · refine ⟨decode_async_mode b, ?_, rfl, ?_, by omega⟩
    · simp only [i8251_write, hst, hb]
      have : (store_asynchronous_mode (decode_async_mode b)).asynchronous_mode
          = decode_async_mode b := rfl
      simp [this, h0]
    · generalize hz : (b >>> 6) &&& 3 = z at h3
      simp only [decode_async_mode, hz]
      interval_cases z <;> simp

theorem write_sync1 (usart : i8251_usart_t) (b : Nat)
    (hst : usart.mode_st = i8251_mode_enum_t.I8251_SYNC_CHAR_1) :
    i8251_write usart true b =
      { usart with
        sync_char1 := b
        mode_st :=
          if usart.mode.synchronous_mode.scs then i8251_mode_enum_t.I8251_COMMAND_INSTR
          else i8251_mode_enum_t.I8251_SYNC_CHAR_2 } := by
  simp only [i8251_write, hst]
  cases usart.mode.synchronous_mode.scs <;> simp

theorem write_sync2 (usart : i8251_usart_t) (b : Nat)
    (hst : usart.mode_st = i8251_mode_enum_t.I8251_SYNC_CHAR_2) :
    i8251_write usart true b =
      { usart with sync_char2 := b, mode_st := i8251_mode_enum_t.I8251_COMMAND_INSTR } := by
  simp only [i8251_write, hst]
  simp

theorem write_mode_len (usart : i8251_usart_t) (b : Nat)
    (hst : usart.mode_st = i8251_mode_enum_t.I8251_MODE_LEN) :
    i8251_write usart true b = usart := by
  simp only [i8251_write, hst]
  simp

/-- What a data-channel write does, by cases on transmit-enable and format. -/
theorem write_data_cases (usart : i8251_usart_t) (d : Nat) :
    (usart.command.texn = false ∧ i8251_write usart false d = { usart with tx_data := d }) ∨
    (usart.command.texn = true ∧ usart.format = i8251_format_t.I8251_ASYNC ∧
      i8251_write usart false d =
        { usart with
          tx_data := d
          mode :=
            if usart.mode.asynchronous_mode.stop_len = 0 then
              store_asynchronous_mode { usart.mode.asynchronous_mode with stop_len := 1 }
            else usart.mode
          tx_shift := create_bitstream_async d
            { usart.mode.asynchronous_mode with stop_len := async_stop_len usart }
          status := { usart.status with txrdy := false, txe := false } }) ∨
    (usart.command.texn = true ∧ usart.format = i8251_format_t.I8251_SYNC ∧
      i8251_write usart false d =
        { usart with
          tx_data := d
          tx_shift := create_bitstream_sync d usart.mode.synchronous_mode
          status := { usart.status with txrdy := false, txe := false } }) := by
  cases htexn : usart.command.texn
  · left
    refine ⟨rfl, ?_⟩
    unfold i8251_write
    simp [htexn]
  · right
    cases hfmt : usart.format
    · left
      refine ⟨rfl, rfl, ?_⟩
      unfold i8251_write
      by_cases h0 : usart.mode.asynchronous_mode.stop_len = 0
      · have : (store_asynchronous_mode
            { usart.mode.asynchronous_mode with stop_len := 1 }).asynchronous_mode
            = { usart.mode.asynchronous_mode with stop_len := 1 } := rfl
        simp [htexn, hfmt, h0, this, async_stop_len]
      · have hm : ({ usart.mode.asynchronous_mode with
            stop_len := usart.mode.asynchronous_mode.stop_len } : i8251_mode_async_t)
            = usart.mode.asynchronous_mode := rfl
        simp [htexn, hfmt, h0, async_stop_len, hm]
    · right
      refine ⟨rfl, rfl, ?_⟩
      unfold i8251_write
      simp [htexn, hfmt]

/-- What a control-channel write does to the stage and to the error flags, by
cases on the stage. -/
theorem write_control_effect (usart : i8251_usart_t) (b : Nat) :
    (usart.mode_st = i8251_mode_enum_t.I8251_COMMAND_INSTR ∧
      (b.testBit 4 = true ∨ b.testBit 6 = true) ∧
      (i8251_write usart true b).status.pe = false ∧
      (i8251_write usart true b).status.oe = false ∧
      (i8251_write usart true b).status.fe = false ∧
      (i8251_write usart true b).mode_st =
        (if b.testBit 6 then i8251_mode_enum_t.I8251_MODE_INSTR
         else i8251_mode_enum_t.I8251_COMMAND_INSTR)) ∨
    (¬ (usart.mode_st = i8251_mode_enum_t.I8251_COMMAND_INSTR ∧
        (b.testBit 4 = true ∨ b.testBit 6 = true)) ∧
      (i8251_write usart true b).status.pe = usart.status.pe ∧
      (i8251_write usart true b).status.oe = usart.status.oe ∧
      (i8251_write usart true b).status.fe = usart.status.fe ∧
      (usart.mode_st = i8251_mode_enum_t.I8251_COMMAND_INSTR →
        (i8251_write usart true b).mode_st = i8251_mode_enum_t.I8251_COMMAND_INSTR) ∧
      (usart.mode_st = i8251_mode_enum_t.I8251_MODE_INSTR →
        (i8251_write usart true b).mode_st = i8251_mode_enum_t.I8251_SYNC_CHAR_1 ∨
        (i8251_write usart true b).mode_st = i8251_mode_enum_t.I8251_COMMAND_INSTR) ∧
      (usart.mode_st = i8251_mode_enum_t.I8251_SYNC_CHAR_1 →
        (i8251_write usart true b).mode_st = i8251_mode_enum_t.I8251_SYNC_CHAR_2 ∨
        (i8251_write usart true b).mode_st = i8251_mode_enum_t.I8251_COMMAND_INSTR) ∧
      (usart.mode_st = i8251_mode_enum_t.I8251_SYNC_CHAR_2 →
        (i8251_write usart true b).mode_st = i8251_mode_enum_t.I8251_COMMAND_INSTR) ∧
      (usart.mode_st = i8251_mode_enum_t.I8251_MODE_LEN →
        (i8251_write usart true b).mode_st = i8251_mode_enum_t.I8251_MODE_LEN)) := by
  cases hst : usart.mode_st
  · right
    by_cases hb : b &&& 3 = 0
    · rw [write_mode_sync usart b hst hb]
      simp
    · obtain ⟨m, hm, _⟩ := write_mode_async usart b hst hb
      rw [hm]
      simp
  · right
    rw [write_sync1 usart b hst]
    cases usart.mode.synchronous_mode.scs <;> simp
  · right
    rw [write_sync2 usart b hst]
    simp
  · cases h6 : b.testBit 6
    · rw [write_command_plain usart b hst h6]
      cases h4 : b.testBit 4
      · right
        simp [hst]
      · left
        simp [hst]
    · left
      rw [write_command_reset usart b hst h6]
      simp
  · right
    rw [write_mode_len usart b hst]
    simp [hst]

/-- What each operation does to the stage and to the error flags, unless it is
a control-channel write. -/
theorem op_effect (usart : i8251_usart_t) (o : i8251_op)
    (ho : ∀ b, o ≠ i8251_op.write true b) :
    (apply_op usart o).mode_st = usart.mode_st ∧
    (usart.status.pe = true → (apply_op usart o).status.pe = true) ∧
    (usart.status.oe = true → (apply_op usart o).status.oe = true) ∧
    (usart.status.fe = true → (apply_op usart o).status.fe = true) ∧
    ((∀ rxd, o = i8251_op.tick_rx rxd → ¬ completes_frame usart rxd) →
      (apply_op usart o).status.pe = usart.status.pe ∧
      (apply_op usart o).status.oe = usart.status.oe ∧
      (apply_op usart o).status.fe = usart.status.fe) := by
  cases o with
  | tick_tx =>
    obtain ⟨pin, cnt, sh, r, e, h⟩ := tick_tx_frame usart
    simp only [apply_op]
    rw [h]
    exact ⟨rfl, id, id, id, fun _ => ⟨rfl, rfl, rfl⟩⟩
  | tick_rx rxd =>
    obtain ⟨cnt, busy, sh, data, rdy, pe, oe, fe, h, hpe, hoe, hfe, hn⟩ := tick_rx_frame usart rxd
    simp only [apply_op]
    rw [h]
    refine ⟨rfl, hpe, hoe, hfe, ?_⟩
    intro hc
    have := hn (hc rxd rfl)
    exact ⟨this.2.2.1, this.2.2.2.1, this.2.2.2.2⟩
  | read control_data =>
    cases control_data <;> exact ⟨rfl, id, id, id, fun _ => ⟨rfl, rfl, rfl⟩⟩
  | write control_data data =>
    cases control_data with
    | true => exact absurd rfl (ho data)
    | false =>
      simp only [apply_op]
      rcases write_data_cases usart data with ⟨_, h⟩ | ⟨_, _, h⟩ | ⟨_, _, h⟩ <;>
        rw [h] <;>
        exact ⟨rfl, id, id, id, fun _ => ⟨rfl, rfl, rfl⟩⟩
  | drive_cts level => exact ⟨rfl, id, id, id, fun _ => ⟨rfl, rfl, rfl⟩⟩
  | drive_dsr level => exact ⟨rfl, id, id, id, fun _ => ⟨rfl, rfl, rfl⟩⟩

theorem clears_errors_iff (usart : i8251_usart_t) (b : Nat) :
    clears_errors usart (i8251_op.write true b) ↔
      (usart.mode_st = i8251_mode_enum_t.I8251_COMMAND_INSTR ∧
        (b.testBit 4 = true ∨ b.testBit 6 = true)) := by
  constructor
  · rintro ⟨c, hc, h1, h2⟩
    cases hc
    exact ⟨h1, h2⟩
  · rintro ⟨h1, h2⟩
    exact ⟨b, rfl, h1, h2⟩

/-- The error flags after an operation: all clear after an operation that
`clears_errors`, and otherwise a set flag stays set. -/
theorem errors_after (usart : i8251_usart_t) (o : i8251_op) :
    (clears_errors usart o ∧
      (apply_op usart o).status.pe = false ∧
      (apply_op usart o).status.oe = false ∧
      (apply_op usart o).status.fe = false) ∨
    (¬ clears_errors usart o ∧
      (usart.status.pe = true → (apply_op usart o).status.pe = true) ∧
      (usart.status.oe = true → (apply_op usart o).status.oe = true) ∧
      (usart.status.fe = true → (apply_op usart o).status.fe = true)) := by
  by_cases hw : ∃ b, o = i8251_op.write true b
  · obtain ⟨b, rfl⟩ := hw
    rw [clears_errors_iff]
    rcases write_control_effect usart b with ⟨h1, h2, hp, ho, hf, _⟩ | ⟨hn, hp, ho, hf, _⟩
    · exact Or.inl ⟨⟨h1, h2⟩, hp, ho, hf⟩
    · refine Or.inr ⟨hn, ?_, ?_, ?_⟩
      · intro h; rw [show (apply_op usart (i8251_op.write true b)).status.pe
          = (i8251_write usart true b).status.pe from rfl, hp]; exact h
      · intro h; rw [show (apply_op usart (i8251_op.write true b)).status.oe
          = (i8251_write usart true b).status.oe from rfl, ho]; exact h
      · intro h; rw [show (apply_op usart (i8251_op.write true b)).status.fe
          = (i8251_write usart true b).status.fe from rfl, hf]; exact h
  · have ho : ∀ b, o ≠ i8251_op.write true b := fun b hb => hw ⟨b, hb⟩
    have h := op_effect usart o ho
    refine Or.inr ⟨?_, h.2.1, h.2.2.1, h.2.2.2.1⟩
    rintro ⟨b, hb, _⟩
    exact ho b hb

/-! ## The framing builders -/

/-- Appending one bit `b` to a bit pattern of `len` valid bits, as the framing
builders and the receive sampler do. -/
theorem push_bit (bits len b : Nat) (hlen : len < 16) (hb : b ≤ 1) (hlt : bits < 2 ^ len) :
    (bits ||| (b <<< len)) % 65536 < 2 ^ (len + 1) ∧
    (∀ i, i < len → ((bits ||| (b <<< len)) % 65536).testBit i = bits.testBit i) ∧
    ((bits ||| (b <<< len)) % 65536).testBit len = decide (b = 1) := by
  have h1 : bits < 2 ^ (len + 1) := by
    have : 2 ^ len ≤ 2 ^ (len + 1) := Nat.pow_le_pow_right (by norm_num) (by omega)
    omega
  have h2 : b <<< len < 2 ^ (len + 1) := by
    rw [Nat.shiftLeft_eq, Nat.pow_succ]
    have : 0 < 2 ^ len := by positivity
    nlinarith
  have h3 : bits ||| (b <<< len) < 2 ^ (len + 1) := Nat.or_lt_two_pow h1 h2
  have h4 : (2 : Nat) ^ (len + 1) ≤ 2 ^ 16 := Nat.pow_le_pow_right (by norm_num) (by omega)
  have h5 : (bits ||| (b <<< len)) % 65536 = bits ||| (b <<< len) :=
    Nat.mod_eq_of_lt (by norm_num at h4; omega)
  rw [h5]
  refine ⟨h3, ?_, ?_⟩
  · intro i hi
    simp [Nat.testBit_or, Nat.testBit_shiftLeft, Nat.not_le.mpr hi]
  · have hz : bits.testBit len = false := Nat.testBit_lt_two_pow hlt
    simp only [Nat.testBit_or, hz, Nat.testBit_shiftLeft, ge_iff_le, Nat.le_refl, decide_True,
      Nat.sub_self, Bool.true_and, Bool.false_or, Nat.testBit_zero]
    have : b = 0 ∨ b = 1 := by omega
    rcases this with h | h <;> simp [h]

theorem and_one_le (x : Nat) : x &&& 1 ≤ 1 := by
  rw [Nat.and_one_is_mod]
  omega

theorem and_one_eq_one (x i : Nat) : decide ((x >>> i) &&& 1 = 1) = x.testBit i := by
  simp [Nat.testBit, Nat.and_comm, Nat.and_one_is_mod]

theorem data_loop_spec (data : Nat) : ∀ (n i : Nat) (bs : bitstream_t),
    bs.bits_len + n ≤ 16 → bs.bits < 2 ^ bs.bits_len →
    (data_loop data n i bs).bits_len = bs.bits_len + n ∧
    (data_loop data n i bs).bits < 2 ^ (bs.bits_len + n) ∧
    (∀ j, j < bs.bits_len → (data_loop data n i bs).bits.testBit j = bs.bits.testBit j) ∧
    (∀ k, k < n → (data_loop data n i bs).bits.testBit (bs.bits_len + k) = data.testBit (i + k)) := by
  intro n
  induction n with
  | zero =>
    intro i bs _ hlt
    exact ⟨rfl, hlt, fun _ _ => rfl, fun k hk => absurd hk (Nat.not_lt_zero k)⟩
  | succ n ih =>
    intro i bs hlen hlt
    obtain ⟨p1, p2, p3⟩ := push_bit bs.bits bs.bits_len ((data >>> i) &&& 1) (by omega)
      (and_one_le _) hlt
    have hl : (bs.bits_len + 1) % 256 = bs.bits_len + 1 := Nat.mod_eq_of_lt (by omega)
    have h := ih (i + 1)
      { bits := (bs.bits ||| (((data >>> i) &&& 1) <<< bs.bits_len)) % 65536
        bits_len := (bs.bits_len + 1) % 256 }
      (by show (bs.bits_len + 1) % 256 + n ≤ 16; omega)
      (by show _ < 2 ^ ((bs.bits_len + 1) % 256); rw [hl]; exact p1)
    simp only [hl] at h
    obtain ⟨q1, q2, q3, q4⟩ := h
    simp only [data_loop, hl]
    have hsum : bs.bits_len + (n + 1) = bs.bits_len + 1 + n := by omega
    refine ⟨(by rw [q1]; omega), (by rw [hsum]; exact q2), ?_, ?_⟩
    · intro j hj
      rw [q3 j (by omega), p2 j hj]
    · intro k hk
      rcases k with _ | k
      · have h0 := q3 bs.bits_len (by omega)
        simp only [Nat.add_zero]
        rw [h0, p3, and_one_eq_one]
      · rw [show bs.bits_len + (k + 1) = bs.bits_len + 1 + k by omega, q4 k (by omega),
          show i + 1 + k = i + (k + 1) by omega]

theorem stop_loop_spec : ∀ (n : Nat) (bs : bitstream_t),
    bs.bits_len + n ≤ 16 → bs.bits < 2 ^ bs.bits_len →
    (stop_loop n bs).bits_len = bs.bits_len + n ∧
    (stop_loop n bs).bits < 2 ^ (bs.bits_len + n) ∧
    (∀ j, j < bs.bits_len → (stop_loop n bs).bits.testBit j = bs.bits.testBit j) ∧
    (∀ k, k < n → (stop_loop n bs).bits.testBit (bs.bits_len + k) = true) := by
  intro n
  induction n with
  | zero =>
    intro bs _ hlt
    exact ⟨rfl, hlt, fun _ _ => rfl, fun k hk => absurd hk (Nat.not_lt_zero k)⟩
  | succ n ih =>
    intro bs hlen hlt
    obtain ⟨p1, p2, p3⟩ := push_bit bs.bits bs.bits_len 1 (by omega) (Nat.le_refl 1) hlt
    have hl : (bs.bits_len + 1) % 256 = bs.bits_len + 1 := Nat.mod_eq_of_lt (by omega)
    have h := ih
      { bits := (bs.bits ||| (1 <<< bs.bits_len)) % 65536
        bits_len := (bs.bits_len + 1) % 256 }
      (by show (bs.bits_len + 1) % 256 + n ≤ 16; omega)
      (by show _ < 2 ^ ((bs.bits_len + 1) % 256); rw [hl]; exact p1)
    simp only [hl] at h
    obtain ⟨q1, q2, q3, q4⟩ := h
    simp only [stop_loop, hl]
    have hsum : bs.bits_len + (n + 1) = bs.bits_len + 1 + n := by omega
    refine ⟨(by rw [q1]; omega), (by rw [hsum]; exact q2), ?_, ?_⟩
    · intro j hj
      rw [q3 j (by omega), p2 j hj]
    · intro k hk
      rcases k with _ | k
      · have h0 := q3 bs.bits_len (by omega)
        simp only [Nat.add_zero]
        rw [h0, p3]
        rfl
      · rw [show bs.bits_len + (k + 1) = bs.bits_len + 1 + k by omega, q4 k (by omega)]

theorem parity_step_spec (data data_len : Nat) (pen ep : Bool) (bs : bitstream_t)
    (hlen : bs.bits_len + c_int pen ≤ 16) (hlt : bs.bits < 2 ^ bs.bits_len) :
    (parity_step data data_len pen ep bs).bits_len = bs.bits_len + c_int pen ∧
    (parity_step data data_len pen ep bs).bits < 2 ^ (bs.bits_len + c_int pen) ∧
    (∀ j, j < bs.bits_len →
      (parity_step data data_len pen ep bs).bits.testBit j = bs.bits.testBit j) ∧
    (pen = true →
      (parity_step data data_len pen ep bs).bits.testBit bs.bits_len
        = parity_bit data data_len ep) := by
  cases pen
  · exact ⟨rfl, hlt, fun _ _ => rfl, fun h => by cases h⟩
  · have hlen2 : bs.bits_len < 16 := by
      have : c_int true = 1 := rfl
      omega
    have hc : c_int (parity_bit data data_len ep) ≤ 1 := by
      unfold c_int; split <;> omega
    obtain ⟨p1, p2, p3⟩ := push_bit bs.bits bs.bits_len (c_int (parity_bit data data_len ep))
      hlen2 hc hlt
    have hl : (bs.bits_len + 1) % 256 = bs.bits_len + 1 := Nat.mod_eq_of_lt (by omega)
    simp only [parity_step, if_true, hl]
    refine ⟨rfl, p1, p2, fun _ => ?_⟩
    rw [p3]
    cases parity_bit data data_len ep <;> simp [c_int]

theorem mask_once (x L : Nat) (hL : L ≤ 8) : (x &&& len_mask L) % 256 = x % 2 ^ L := by
  rw [len_mask_eq L hL, Nat.and_pow_two_sub_one_eq_mod]
  have h1 : x % 2 ^ L < 2 ^ L := Nat.mod_lt _ (by positivity)
  have h2 : 2 ^ L ≤ 2 ^ 8 := Nat.pow_le_pow_right (by norm_num) hL
  exact Nat.mod_eq_of_lt (by omega)

theorem parity_bit_masked (d L : Nat) (e : Bool) (hL : L ≤ 8) :
    parity_bit ((d &&& len_mask L) % 256) L e = parity_bit d L e := by
  have h : (((d &&& len_mask L) % 256) &&& len_mask L) % 256 = (d &&& len_mask L) % 256 := by
    rw [mask_twice d L hL, mask_once d L hL]
  simp only [parity_bit, h]

/-- The frame built by `create_bitstream_async`, for a capped character length
`L`, stop-bit count `S` (0 taken as 1) and a total of at most 16 bits. -/
theorem create_bitstream_async_spec (d : Nat) (m : i8251_mode_async_t)
    (hfit : 1 + (if m.char_len > 8 then 8 else m.char_len) + c_int m.pen
      + (if m.stop_len ≠ 0 then m.stop_len else 1) ≤ 16) :
    (create_bitstream_async d m).bits_len
      = 1 + (if m.char_len > 8 then 8 else m.char_len) + c_int m.pen
        + (if m.stop_len ≠ 0 then m.stop_len else 1) ∧
    (create_bitstream_async d m).bits < 2 ^ (create_bitstream_async d m).bits_len ∧
    (create_bitstream_async d m).bits.testBit 0 = false ∧
    (∀ k, k < (if m.char_len > 8 then 8 else m.char_len) →
      (create_bitstream_async d m).bits.testBit (1 + k) = d.testBit k) ∧
    (m.pen = true →
      (create_bitstream_async d m).bits.testBit (1 + (if m.char_len > 8 then 8 else m.char_len))
        = parity_bit d (if m.char_len > 8 then 8 else m.char_len) m.ep) ∧
    (∀ j, j < (if m.stop_len ≠ 0 then m.stop_len else 1) →
      (create_bitstream_async d m).bits.testBit
        (1 + (if m.char_len > 8 then 8 else m.char_len) + c_int m.pen + j) = true) := by
  generalize hLdef : (if m.char_len > 8 then 8 else m.char_len) = L at hfit ⊢
  generalize hSdef : (if m.stop_len ≠ 0 then m.stop_len else 1) = S at hfit ⊢
  have hL : L ≤ 8 := by
    rw [← hLdef]; split <;> omega
  have hcb : c_int m.pen ≤ 1 := by
    unfold c_int; split <;> omega
  have e : create_bitstream_async d m =
      stop_loop S (parity_step ((d &&& len_mask L) % 256) L m.pen m.ep
        (data_loop ((d &&& len_mask L) % 256) L 0 { bits := 0, bits_len := 1 })) := by
    simp only [create_bitstream_async, hLdef, hSdef]
  obtain ⟨a1, a2, a3, a4⟩ := data_loop_spec ((d &&& len_mask L) % 256) L 0
    { bits := 0, bits_len := 1 } (by show 1 + L ≤ 16; omega) (by show 0 < 2 ^ 1; norm_num)
  simp only at a1 a2 a3 a4
  obtain ⟨b1, b2, b3, b4⟩ := parity_step_spec ((d &&& len_mask L) % 256) L m.pen m.ep
    (data_loop ((d &&& len_mask L) % 256) L 0 { bits := 0, bits_len := 1 })
    (by rw [a1]; omega) (by rw [a1]; exact a2)
  rw [a1] at b1 b2 b3 b4
  obtain ⟨c1, c2, c3, c4⟩ := stop_loop_spec S
    (parity_step ((d &&& len_mask L) % 256) L m.pen m.ep
      (data_loop ((d &&& len_mask L) % 256) L 0 { bits := 0, bits_len := 1 }))
    (by rw [b1]; omega) (by rw [b1]; exact b2)
  rw [b1] at c1 c2 c3 c4
  rw [e]
  refine ⟨c1, (by rw [c1]; exact c2), ?_, ?_, ?_, c4⟩
  · rw [c3 0 (by omega), b3 0 (by omega), a3 0 (by omega)]
    rfl
  · intro k hk
    rw [c3 (1 + k) (by omega), b3 (1 + k) (by omega), a4 k hk, mask_once d L hL,
      Nat.testBit_mod_two_pow]
    simp [hk]
  · intro hp
    rw [c3 (1 + L) (by rw [hp]; show 1 + L < 1 + L + 1 ; omega), b4 hp, parity_bit_masked d L m.ep hL]

/-- The bits built by `create_bitstream_sync`, for a capped character length `L`. -/
theorem create_bitstream_sync_spec (d : Nat) (m : i8251_mode_sync_t) :
    (create_bitstream_sync d m).bits_len
      = (if m.char_len > 8 then 8 else m.char_len) + c_int m.pen ∧
    (create_bitstream_sync d m).bits < 2 ^ (create_bitstream_sync d m).bits_len ∧
    (∀ k, k < (if m.char_len > 8 then 8 else m.char_len) →
      (create_bitstream_sync d m).bits.testBit k = d.testBit k) ∧
    (m.pen = true →
      (create_bitstream_sync d m).bits.testBit (if m.char_len > 8 then 8 else m.char_len)
        = parity_bit d (if m.char_len > 8 then 8 else m.char_len) m.ep) := by
  generalize hLdef : (if m.char_len > 8 then 8 else m.char_len) = L
  have hL : L ≤ 8 := by
    rw [← hLdef]; split <;> omega
  have hcb : c_int m.pen ≤ 1 := by
    unfold c_int; split <;> omega
  have e : create_bitstream_sync d m =
      parity_step ((d &&& len_mask L) % 256) L m.pen m.ep
        (data_loop ((d &&& len_mask L) % 256) L 0 { bits := 0, bits_len := 0 }) := by
    simp only [create_bitstream_sync, hLdef]
  obtain ⟨a1, a2, a3, a4⟩ := data_loop_spec ((d &&& len_mask L) % 256) L 0
    { bits := 0, bits_len := 0 } (by show 0 + L ≤ 16; omega) (by show 0 < 2 ^ 0; norm_num)
  simp only [Nat.zero_add] at a1 a2 a3 a4
  obtain ⟨b1, b2, b3, b4⟩ := parity_step_spec ((d &&& len_mask L) % 256) L m.pen m.ep
    (data_loop ((d &&& len_mask L) % 256) L 0 { bits := 0, bits_len := 0 })
    (by rw [a1]; omega) (by rw [a1]; exact a2)
  rw [a1] at b1 b2 b3 b4
  rw [e]
  refine ⟨b1, (by rw [b1]; exact b2), ?_, ?_⟩
  · intro k hk
    rw [b3 k hk, a4 k hk, mask_once d L hL, Nat.testBit_mod_two_pow]
    simp [hk]
  · intro hp
    rw [b4 hp, parity_bit_masked d L m.ep hL]

/-! ## The transmit divider, call by call -/

theorem tx_shifted_zero (usart : i8251_usart_t) : tx_shifted usart 0 usart.tx_clk_cnt = usart := by
  simp [tx_shifted]

theorem tx_shifted_wait (usart : i8251_usart_t) (k r : Nat)
    (hfmt : usart.format = i8251_format_t.I8251_ASYNC)
    (htexn : usart.command.texn = true) (hsbrk : usart.command.sbrk = false)
    (hcts : usart.cts = true) (hr : r + 1 < i8251_div_async usart) (hr2 : r + 1 < 256) :
    i8251_tick_tx (tx_shifted usart k r) = tx_shifted usart k (r + 1) := by
  have hc : ((tx_shifted usart k r).tx_clk_cnt + 1) % 256 = r + 1 := Nat.mod_eq_of_lt hr2
  rw [tick_tx_wait (tx_shifted usart k r) htexn hsbrk hfmt hcts (by rw [hc]; exact hr), hc]
  rfl

theorem tx_shifted_shift (usart : i8251_usart_t) (k r : Nat)
    (htexn : usart.command.texn = true) (hsbrk : usart.command.sbrk = false)
    (hcts : usart.cts = true) (hr : r + 1 = i8251_div_async usart) (hr2 : r + 1 < 256)
    (hk : k < usart.tx_shift.bits_len) :
    i8251_tick_tx (tx_shifted usart k r) = tx_shifted usart (k + 1) 0 := by
  have hc : ((tx_shifted usart k r).tx_clk_cnt + 1) % 256 = r + 1 := Nat.mod_eq_of_lt hr2
  rw [tick_tx_shift (tx_shifted usart k r) htexn hsbrk (Or.inr ⟨hcts, by rw [hc]; exact hr.ge⟩),
    tx_shift_step_nonempty _ (by show usart.tx_shift.bits_len - k ≠ 0; omega)]
  have hst : (if k = 0 then usart.status
      else if k = usart.tx_shift.bits_len then { usart.status with txrdy := true, txe := true }
      else usart.status) = usart.status := by
    split_ifs <;> first | rfl | omega
  have hk1 : k + 1 ≠ 0 := by omega
  have hsh : usart.tx_shift.bits >>> k >>> 1 = usart.tx_shift.bits >>> (k + 1) := by
    rw [Nat.shiftRight_add]
  have hlen : usart.tx_shift.bits_len - k - 1 = usart.tx_shift.bits_len - (k + 1) := by omega
  simp only [tx_shifted, hst, hk1, if_false, Nat.add_sub_cancel, hsh, hlen]
  by_cases hlast : k + 1 = usart.tx_shift.bits_len
  · simp only [hlast, Nat.sub_self, if_true]
  · have h0 : usart.tx_shift.bits_len - (k + 1) ≠ 0 := by omega
    simp only [h0, hlast, if_false]

theorem tx_shifted_idle (usart : i8251_usart_t) (r : Nat)
    (htexn : usart.command.texn = true) (hsbrk : usart.command.sbrk = false)
    (hcts : usart.cts = true) (hr : r + 1 = i8251_div_async usart) (hr2 : r + 1 < 256)
    (hn : 1 ≤ usart.tx_shift.bits_len) :
    i8251_tick_tx (tx_shifted usart usart.tx_shift.bits_len r)
      = tx_shifted usart usart.tx_shift.bits_len 0 := by
  have hc : ((tx_shifted usart usart.tx_shift.bits_len r).tx_clk_cnt + 1) % 256 = r + 1 :=
    Nat.mod_eq_of_lt hr2
  rw [tick_tx_shift (tx_shifted usart usart.tx_shift.bits_len r) htexn hsbrk
      (Or.inr ⟨hcts, by rw [hc]; exact hr.ge⟩),
    tx_shift_step_empty _
      (by show usart.tx_shift.bits_len - usart.tx_shift.bits_len = 0; omega)]
  have hne : usart.tx_shift.bits_len ≠ 0 := by omega
  simp only [tx_shifted, hne, if_false, if_true]

theorem tx_after_step (usart : i8251_usart_t) (D j : Nat)
    (hD : D = 1 ∨ D = 16 ∨ D = 64)
    (hfmt : usart.format = i8251_format_t.I8251_ASYNC)
    (hdiv : usart.mode.asynchronous_mode.baud_sel = D)
    (htexn : usart.command.texn = true) (hsbrk : usart.command.sbrk = false)
    (hcts : usart.cts = true) (hn : 1 ≤ usart.tx_shift.bits_len) :
    i8251_tick_tx (tx_after usart D j) = tx_after usart D (j + 1) := by
  have hdiv2 : i8251_div_async usart = D := by
    show (if usart.mode.asynchronous_mode.baud_sel = 0 then 1
      else usart.mode.asynchronous_mode.baud_sel) = D
    rw [hdiv]
    rcases hD with h | h | h <;> subst h <;> rfl
  have hDpos : 0 < D := by omega
  have hDle : D ≤ 64 := by omega
  have hmod : j % D < D := Nat.mod_lt j hDpos
  by_cases hw : j % D + 1 < D
  · have hq : (j + 1) / D = j / D := by
      rcases hD with h | h | h <;> subst h <;> omega
    have hr : (j + 1) % D = j % D + 1 := by
      rcases hD with h | h | h <;> subst h <;> omega
    rw [tx_after, tx_after, hq, hr]
    exact tx_shifted_wait usart _ _ hfmt htexn hsbrk hcts (by rw [hdiv2]; exact hw) (by omega)
  · have hq : (j + 1) / D = j / D + 1 := by
      rcases hD with h | h | h <;> subst h <;> omega
    have hr : (j + 1) % D = 0 := by
      rcases hD with h | h | h <;> subst h <;> omega
    rw [tx_after, tx_after, hq, hr]
    by_cases hlt : j / D < usart.tx_shift.bits_len
    · rw [Nat.min_eq_right (by omega : j / D ≤ usart.tx_shift.bits_len),
        Nat.min_eq_right (by omega : j / D + 1 ≤ usart.tx_shift.bits_len)]
      exact tx_shifted_shift usart _ _ htexn hsbrk hcts (by rw [hdiv2]; omega) (by omega) hlt
    · rw [Nat.min_eq_left (by omega : usart.tx_shift.bits_len ≤ j / D),
        Nat.min_eq_left (by omega : usart.tx_shift.bits_len ≤ j / D + 1)]
      exact tx_shifted_idle usart _ htexn hsbrk hcts (by rw [hdiv2]; omega) (by omega) hn

theorem tx_after_run (usart : i8251_usart_t) (D : Nat)
    (hD : D = 1 ∨ D = 16 ∨ D = 64)
    (hfmt : usart.format = i8251_format_t.I8251_ASYNC)
    (hdiv : usart.mode.asynchronous_mode.baud_sel = D)
    (htexn : usart.command.texn = true) (hsbrk : usart.command.sbrk = false)
    (hcts : usart.cts = true) (hcnt : usart.tx_clk_cnt = 0)
    (hn : 1 ≤ usart.tx_shift.bits_len) : ∀ j,
    (i8251_tick_tx^[j]) usart = tx_after usart D j := by
  intro j
  induction j with
  | zero =>
    have h := tx_shifted_zero usart
    rw [hcnt] at h
    show usart = tx_shifted usart (min usart.tx_shift.bits_len (0 / D)) (0 % D)
    rw [Nat.zero_div, Nat.zero_mod, Nat.min_zero, h]
  | succ j ih =>
    rw [Function.iterate_succ_apply', ih,
      tx_after_step usart D j hD hfmt hdiv htexn hsbrk hcts hn]

/-! ## Invariants of the reachable states -/

/-- What `i8251_tick_tx` leaves alone, and the shifter never grows. -/
theorem tick_tx_sides (usart : i8251_usart_t) :
    (i8251_tick_tx usart).rx_busy = usart.rx_busy ∧
    (i8251_tick_tx usart).rx_clk_cnt = usart.rx_clk_cnt ∧
    (i8251_tick_tx usart).rx_shift = usart.rx_shift ∧
    (i8251_tick_tx usart).format = usart.format ∧
    (i8251_tick_tx usart).mode = usart.mode ∧
    (i8251_tick_tx usart).tx_shift.bits_len ≤ usart.tx_shift.bits_len := by
  rcases tick_tx_cases usart with h | ⟨h1, h2⟩ | ⟨h1, h2, h3, h4⟩ | ⟨h1, h2, h3, h4, h5⟩ |
    ⟨h1, h2, h3⟩
  · rw [tick_tx_disabled usart h]
    exact ⟨rfl, rfl, rfl, rfl, rfl, Nat.le_refl _⟩
  · rw [tick_tx_break usart h1 h2]
    exact ⟨rfl, rfl, rfl, rfl, rfl, Nat.le_refl _⟩
  · rw [tick_tx_hold usart h1 h2 h3 h4]
    exact ⟨rfl, rfl, rfl, rfl, rfl, Nat.le_refl _⟩
  · rw [tick_tx_wait usart h1 h2 h3 h4 h5]
    exact ⟨rfl, rfl, rfl, rfl, rfl, Nat.le_refl _⟩
  · rw [tick_tx_shift usart h1 h2 h3]
    by_cases hl : usart.tx_shift.bits_len = 0
    · rw [tx_shift_step_empty { usart with tx_clk_cnt := 0 } hl]
      exact ⟨rfl, rfl, rfl, rfl, rfl, Nat.le_refl _⟩
    · rw [tx_shift_step_nonempty { usart with tx_clk_cnt := 0 } hl]
      exact ⟨rfl, rfl, rfl, rfl, rfl, Nat.sub_le _ _⟩

theorem rx_sample_len (s : bitstream_t) (rxd : Nat) (h : s.bits_len ≤ 16) :
    (rx_sample s rxd).bits_len ≤ 16 := by
  unfold rx_sample
  split
  · show (s.bits_len + 1) % 256 ≤ 16
    omega
  · exact h

theorem rx_sample_start (s : bitstream_t) (rxd : Nat)
    (h1 : 1 ≤ s.bits_len) (h0 : s.bits.testBit 0 = false) :
    1 ≤ (rx_sample s rxd).bits_len ∧ (rx_sample s rxd).bits.testBit 0 = false := by
  unfold rx_sample
  split
  · refine ⟨by show 1 ≤ (s.bits_len + 1) % 256; omega, ?_⟩
    show ((s.bits ||| ((if rxd ≠ 0 then 1 else 0) <<< s.bits_len) % 65536) % 65536).testBit 0
      = false
    rw [show (65536 : Nat) = 2 ^ 16 by norm_num, Nat.testBit_mod_two_pow, Nat.testBit_or,
      Nat.testBit_mod_two_pow, Nat.testBit_shiftLeft, h0]
    have : ¬ (0 ≥ s.bits_len) := by omega
    simp [this]
  · exact ⟨h1, h0⟩

/-- What `i8251_tick_rx` leaves alone. -/
theorem tick_rx_sides (usart : i8251_usart_t) (rxd : Nat) :
    (i8251_tick_rx usart rxd).tx_shift = usart.tx_shift ∧
    (i8251_tick_rx usart rxd).format = usart.format ∧
    (i8251_tick_rx usart rxd).mode = usart.mode := by
  obtain ⟨cnt, busy, sh, data, rdy, pe, oe, fe, h, _⟩ := tick_rx_frame usart rxd
  rw [h]
  exact ⟨rfl, rfl, rfl⟩

theorem tick_rx_completes_rx_side (usart : i8251_usart_t) (rxd : Nat)
    (h : completes_frame usart rxd) :
    (i8251_tick_rx usart rxd).rx_busy = false ∧
    (i8251_tick_rx usart rxd).rx_clk_cnt = 0 ∧
    (i8251_tick_rx usart rxd).rx_shift = { bits := 0, bits_len := 0 } := by
  rw [tick_rx_completes usart rxd h]
  refine ⟨rfl, ?_, rfl⟩
  split
  · rfl
  · rcases rx_complete_cases
      { usart with rx_clk_cnt := 0, rx_shift := rx_sample usart.rx_shift rxd }
      (((rx_frame usart rxd >>> 1) &&& len_mask (async_data_len usart)) % 256)
      (if usart.mode.asynchronous_mode.pen then
        (if (rx_frame usart rxd >>> (1 + async_data_len usart)) &&& 1 ≠ 0 then true
         else false)
       else false)
      (stop_scan (rx_frame usart rxd)
        ((1 + async_data_len usart + c_int usart.mode.asynchronous_mode.pen) % 256)
        (async_stop_len usart) 0) with ⟨_, he⟩ | ⟨_, _, he⟩ | ⟨_, _, he⟩ <;>
      rw [he]

theorem tick_rx_bounded (usart : i8251_usart_t) (rxd : Nat)
    (hb : usart.rx_shift.bits_len ≤ 16) : (i8251_tick_rx usart rxd).rx_shift.bits_len ≤ 16 := by
  rcases tick_rx_cases usart rxd with h | ⟨h1, h2, h3⟩ | ⟨h1, h2, h3, h4⟩ | ⟨h1, h2, h3, h4, h5⟩ | h
  · rw [tick_rx_disabled usart rxd h]
    show 0 ≤ 16
    omega
  · rw [tick_rx_idle usart rxd h1 h2 h3]
    split
    · show 1 ≤ 16
      omega
    · show 0 ≤ 16
      omega
  · rw [tick_rx_wait usart rxd h1 h2 h3 h4]
    exact hb
  · rw [tick_rx_sample usart rxd h1 h2 h3 h4 h5]
    exact rx_sample_len _ _ hb
  · rw [(tick_rx_completes_rx_side usart rxd h).2.2]
    show 0 ≤ 16
    omega

theorem tick_rx_keeps_idle_invariant (usart : i8251_usart_t) (rxd : Nat)
    (hinv : rx_idle_invariant usart) : rx_idle_invariant (i8251_tick_rx usart rxd) := by
  rcases tick_rx_cases usart rxd with h | ⟨h1, h2, h3⟩ | ⟨h1, h2, h3, h4⟩ | ⟨h1, h2, h3, h4, h5⟩ | h
  · rw [tick_rx_disabled usart rxd h]
    exact ⟨fun _ => ⟨rfl, rfl⟩, fun hb => (by cases hb)⟩
  · rw [tick_rx_idle usart rxd h1 h2 h3]
    split
    · exact ⟨fun hb => (by cases hb), fun _ => ⟨Nat.le_refl 1, Nat.zero_testBit 0⟩⟩
    · refine ⟨fun _ => ⟨rfl, rfl⟩, fun hb => ?_⟩
      rw [show usart.rx_busy = false from h3] at hb
      cases hb
  · rw [tick_rx_wait usart rxd h1 h2 h3 h4]
    refine ⟨fun hb => ?_, fun _ => hinv.2 h3⟩
    rw [show usart.rx_busy = true from h3] at hb
    cases hb
  · rw [tick_rx_sample usart rxd h1 h2 h3 h4 h5]
    refine ⟨fun hb => ?_, fun _ => ?_⟩
    · rw [show usart.rx_busy = true from h3] at hb
      cases hb
    · exact rx_sample_start _ _ (hinv.2 h3).1 (hinv.2 h3).2
  · obtain ⟨c1, c2, c3⟩ := tick_rx_completes_rx_side usart rxd h
    refine ⟨fun _ => ⟨c2, c3⟩, fun hb => ?_⟩
    rw [c1] at hb
    cases hb

/-- What a control-channel write does to the shifters, the receive framing
state and the stored stop-bit count. -/
theorem write_control_sides (usart : i8251_usart_t) (b : Nat) :
    (((i8251_write usart true b).rx_busy = usart.rx_busy ∧
      (i8251_write usart true b).rx_clk_cnt = usart.rx_clk_cnt ∧
      (i8251_write usart true b).rx_shift = usart.rx_shift ∧
      (i8251_write usart true b).tx_shift = usart.tx_shift) ∨
     ((i8251_write usart true b).rx_busy = false ∧
      (i8251_write usart true b).rx_clk_cnt = 0 ∧
      (i8251_write usart true b).rx_shift = { bits := 0, bits_len := 0 } ∧
      (i8251_write usart true b).tx_shift = { bits := 0, bits_len := 0 })) ∧
    ((usart.format = i8251_format_t.I8251_ASYNC →
        usart.mode.asynchronous_mode.stop_len ≤ 2) →
      (i8251_write usart true b).format = i8251_format_t.I8251_ASYNC →
      (i8251_write usart true b).mode.asynchronous_mode.stop_len ≤ 2) := by
  cases hst : usart.mode_st
  · by_cases hb : b &&& 3 = 0
    · rw [write_mode_sync usart b hst hb]
      exact ⟨Or.inl ⟨rfl, rfl, rfl, rfl⟩, fun _ hf => (by cases hf)⟩
    · obtain ⟨m, hm, _, hs, _⟩ := write_mode_async usart b hst hb
      rw [hm]
      exact ⟨Or.inl ⟨rfl, rfl, rfl, rfl⟩, fun _ _ => hs⟩
  · rw [write_sync1 usart b hst]
    exact ⟨Or.inl ⟨rfl, rfl, rfl, rfl⟩, fun h => h⟩
  · rw [write_sync2 usart b hst]
    exact ⟨Or.inl ⟨rfl, rfl, rfl, rfl⟩, fun h => h⟩
  · cases h6 : b.testBit 6
    · rw [write_command_plain usart b hst h6]
      exact ⟨Or.inl ⟨rfl, rfl, rfl, rfl⟩, fun h => h⟩
    · rw [write_command_reset usart b hst h6]
      exact ⟨Or.inr ⟨rfl, rfl, rfl, rfl⟩, fun h => h⟩
  · rw [write_mode_len usart b hst]
    exact ⟨Or.inl ⟨rfl, rfl, rfl, rfl⟩, fun h => h⟩

/-- What a data-channel write does to the shifters, the receive framing state
and the stored stop-bit count. -/
theorem write_data_sides (usart : i8251_usart_t) (d : Nat) :
    (i8251_write usart false d).rx_busy = usart.rx_busy ∧
    (i8251_write usart false d).rx_clk_cnt = usart.rx_clk_cnt ∧
    (i8251_write usart false d).rx_shift = usart.rx_shift ∧
    (shifters_bounded usart → shifters_bounded (i8251_write usart false d)) := by
  rcases write_data_cases usart d with ⟨_, h⟩ | ⟨_, hfmt, h⟩ | ⟨_, hfmt, h⟩
  · rw [h]
    exact ⟨rfl, rfl, rfl, fun hb => hb⟩
  · rw [h]
    refine ⟨rfl, rfl, rfl, fun hb => ?_⟩
    have hs2 : usart.mode.asynchronous_mode.stop_len ≤ 2 := hb.2.2 hfmt
    have hs : async_stop_len usart ≠ 0 ∧ async_stop_len usart ≤ 2 := by
      unfold async_stop_len; split <;> omega
    have hcb : c_int usart.mode.asynchronous_mode.pen ≤ 1 := by
      unfold c_int; split <;> omega
    have hL : (if usart.mode.asynchronous_mode.char_len > 8 then 8
        else usart.mode.asynchronous_mode.char_len) ≤ 8 := by
      split <;> omega
    have hspec := create_bitstream_async_spec d
      { usart.mode.asynchronous_mode with stop_len := async_stop_len usart }
    simp only [if_pos hs.1] at hspec
    have hlen := (hspec (by omega)).1
    refine ⟨?_, hb.2.1, fun _ => ?_⟩
    · show (create_bitstream_async d
        { usart.mode.asynchronous_mode with stop_len := async_stop_len usart }).bits_len ≤ 16
      rw [hlen]
      omega
    · show (if usart.mode.asynchronous_mode.stop_len = 0 then
          store_asynchronous_mode { usart.mode.asynchronous_mode with stop_len := 1 }
        else usart.mode).asynchronous_mode.stop_len ≤ 2
      split
      · show (1 : Nat) ≤ 2
        omega
      · exact hs2
  · rw [h]
    refine ⟨rfl, rfl, rfl, fun hb => ?_⟩
    have hcb : c_int usart.mode.synchronous_mode.pen ≤ 1 := by
      unfold c_int; split <;> omega
    have hL : (if usart.mode.synchronous_mode.char_len > 8 then 8
        else usart.mode.synchronous_mode.char_len) ≤ 8 := by
      split <;> omega
    have hlen := (create_bitstream_sync_spec d usart.mode.synchronous_mode).1
    refine ⟨?_, hb.2.1, hb.2.2⟩
    show (create_bitstream_sync d usart.mode.synchronous_mode).bits_len ≤ 16
    rw [hlen]
    omega

theorem op_keeps_shifters_bounded (usart : i8251_usart_t) (o : i8251_op)
    (hb : shifters_bounded usart) : shifters_bounded (apply_op usart o) := by
  cases o with
  | tick_tx =>
    obtain ⟨_, _, h3, h4, h5, h6⟩ := tick_tx_sides usart
    refine ⟨Nat.le_trans h6 hb.1, ?_, ?_⟩
    · show (i8251_tick_tx usart).rx_shift.bits_len ≤ 16
      rw [h3]; exact hb.2.1
    · show (i8251_tick_tx usart).format = _ → (i8251_tick_tx usart).mode.asynchronous_mode.stop_len ≤ 2
      rw [h4, h5]; exact hb.2.2
  | tick_rx rxd =>
    obtain ⟨h1, h2, h3⟩ := tick_rx_sides usart rxd
    refine ⟨?_, tick_rx_bounded usart rxd hb.2.1, ?_⟩
    · show (i8251_tick_rx usart rxd).tx_shift.bits_len ≤ 16
      rw [h1]; exact hb.1
    · show (i8251_tick_rx usart rxd).format = _ →
        (i8251_tick_rx usart rxd).mode.asynchronous_mode.stop_len ≤ 2
      rw [h2, h3]; exact hb.2.2
  | read control_data => cases control_data <;> exact hb
  | write control_data data =>
    cases control_data with
    | false => exact (write_data_sides usart data).2.2.2 hb
    | true =>
      obtain ⟨hs, hm⟩ := write_control_sides usart data
      refine ⟨?_, ?_, hm hb.2.2⟩
      · show (i8251_write usart true data).tx_shift.bits_len ≤ 16
        rcases hs with ⟨_, _, _, h⟩ | ⟨_, _, _, h⟩ <;> rw [h]
        · exact hb.1
        · show 0 ≤ 16
          omega
      · show (i8251_write usart true data).rx_shift.bits_len ≤ 16
        rcases hs with ⟨_, _, h, _⟩ | ⟨_, _, h, _⟩ <;> rw [h]
        · exact hb.2.1
        · show 0 ≤ 16
          omega
  | drive_cts level => exact hb
  | drive_dsr level => exact hb

theorem op_keeps_idle_invariant (usart : i8251_usart_t) (o : i8251_op)
    (hinv : rx_idle_invariant usart) : rx_idle_invariant (apply_op usart o) := by
  have same : ∀ u2 : i8251_usart_t, u2.rx_busy = usart.rx_busy →
      u2.rx_clk_cnt = usart.rx_clk_cnt → u2.rx_shift = usart.rx_shift →
      rx_idle_invariant u2 := by
    intro u2 h1 h2 h3
    unfold rx_idle_invariant
    rw [h1, h2, h3]
    exact hinv
  cases o with
  | tick_tx =>
    obtain ⟨h1, h2, h3, _⟩ := tick_tx_sides usart
    exact same _ h1 h2 h3
  | tick_rx rxd => exact tick_rx_keeps_idle_invariant usart rxd hinv
  | read control_data => cases control_data <;> exact hinv
  | write control_data data =>
    cases control_data with
    | false =>
      obtain ⟨h1, h2, h3, _⟩ := write_data_sides usart data
      exact same _ h1 h2 h3
    | true =>
      rcases (write_control_sides usart data).1 with ⟨h1, h2, h3, _⟩ | ⟨h1, h2, h3, _⟩
      · exact same _ h1 h2 h3
      · refine ⟨fun _ => ⟨h2, h3⟩, fun hb => ?_⟩
        rw [show (apply_op usart (i8251_op.write true data)).rx_busy = false from h1] at hb
        cases hb
  | drive_cts level => exact hinv
  | drive_dsr level => exact hinv

theorem run_keeps (P : i8251_usart_t → Prop)
    (hstep : ∀ u o, P u → P (apply_op u o)) (ops : List i8251_op) :
    ∀ usart, P usart → P (run_ops usart ops) := by
  induction ops with
  | nil => intro usart h; exact h
  | cons o ops ih =>
    intro usart h
    exact ih (apply_op usart o) (hstep usart o h)

theorem init_shifters_bounded : shifters_bounded i8251_init :=
  ⟨by decide, by decide, fun _ => by decide⟩

theorem init_idle_invariant : rx_idle_invariant i8251_init :=
  ⟨fun _ => ⟨rfl, rfl⟩, fun h => by cases h⟩

theorem idle_tick_is_identity (usart : i8251_usart_t) (rxd : Nat) (hrxd : rxd ≠ 0)
    (hinv : rx_idle_invariant usart) (hidle : usart.rx_busy = false) :
    i8251_tick_rx usart rxd = usart := by
  obtain ⟨hc, hs⟩ := hinv.1 hidle
  have eta : usart =
      { usart with
        rx_clk_cnt := usart.rx_clk_cnt, rx_busy := usart.rx_busy, rx_shift := usart.rx_shift } :=
    rfl
  rcases tick_rx_cases usart rxd with h | ⟨h1, h2, h3⟩ | ⟨h1, h2, h3, h4⟩ | ⟨h1, h2, h3, h4, h5⟩ | h
  · rw [tick_rx_disabled usart rxd h]
    conv_rhs => rw [eta, hc, hs, hidle]
  · rw [tick_rx_idle usart rxd h1 h2 h3, if_neg hrxd]
    conv_rhs => rw [eta, hc, hs]
  · rw [hidle] at h3; cases h3
  · rw [hidle] at h3; cases h3
  · have := h.2.2.1
    rw [hidle] at this; cases this

theorem frame_start_is_zero (usart : i8251_usart_t) (rxd : Nat)
    (hinv : rx_idle_invariant usart) (h : completes_frame usart rxd) :
    (rx_frame usart rxd).testBit 0 = false :=
  (rx_sample_start usart.rx_shift rxd (hinv.2 h.2.2.1).1 (hinv.2 h.2.2.1).2).2

theorem rx_overrun_keeps_fe (usart : i8251_usart_t) (rxd : Nat)
    (hframe : completes_frame usart rxd)
    (hstart : (rx_frame usart rxd).testBit 0 = false)
    (hrdy : usart.status.rxrdy = true) :
    (i8251_tick_rx usart rxd).status.fe = usart.status.fe := by
  have hs : ¬ (rx_frame usart rxd &&& 1 ≠ 0) := by
    simpa [Nat.testBit, Nat.and_comm] using hstart
  rw [tick_rx_completes usart rxd hframe, if_neg hs]
  simp [i8251_rx_complete_async, hframe.1, hrdy]

theorem new_fe_stores_byte (usart : i8251_usart_t) (rxd : Nat)
    (hinv : rx_idle_invariant usart)
    (hbefore : usart.status.fe = false) (hafter : (i8251_tick_rx usart rxd).status.fe = true) :
    completes_frame usart rxd ∧ usart.status.rxrdy = false ∧
    (i8251_tick_rx usart rxd).status.rxrdy = true ∧
    (i8251_tick_rx usart rxd).rx_data
      = (rx_frame usart rxd >>> 1) % 2 ^ async_data_len usart := by
  have hcf : completes_frame usart rxd := by
    by_contra hn
    obtain ⟨cnt, busy, sh, data, rdy, pe, oe, fe, h, _, _, _, hsame⟩ := tick_rx_frame usart rxd
    rw [h] at hafter
    have h5 := (hsame hn).2.2.2.2
    rw [show fe = true from hafter, hbefore] at h5
    cases h5
  have hstart := frame_start_is_zero usart rxd hinv hcf
  have hrdy : usart.status.rxrdy = false := by
    cases hr : usart.status.rxrdy
    · rfl
    · have := rx_overrun_keeps_fe usart rxd hcf hstart hr
      rw [hafter, hbefore] at this
      cases this
  have hf := rx_complete_fields usart rxd hcf hstart hrdy
  exact ⟨hcf, hrdy, hf.2.1, hf.1⟩

/-! ## The claims -/

/-- Claim C1. Round trip: for every byte `d`, with a transmitter and a receiver
fresh from `i8251_init`, both given mode byte 0x7E (asynchronous, divisor 16,
8 data bits, even parity, 1 stop bit), the transmitter given command 0x01 and
data `d`, the receiver given command 0x04, after 176 (= 16 x 11) iterations of
`i8251_tick_tx` on the transmitter followed by `i8251_tick_rx` on the receiver
with the transmitter's line level, the receiver has receive-ready set, its data
register is `d`, a data-channel read returns `d`, and parity-error,
overrun-error and framing-error are clear. -/
theorem C1_round_trip (d : Nat) (hd : d < 256) :
    link_rx.format = i8251_format_t.I8251_ASYNC ∧
    link_rx.mode.asynchronous_mode
      = { baud_sel := 16, char_len := 8, stop_len := 1, pen := true, ep := true } ∧
    (link_tx d).format = i8251_format_t.I8251_ASYNC ∧
    (link_tx d).mode = link_rx.mode ∧
    (link_tx d).command.texn = true ∧
    link_rx.command.rxe = true ∧
    (link_received d).status.rxrdy = true ∧
    (link_received d).rx_data = d ∧
    (i8251_read (link_received d) false).1 = d ∧
    (link_received d).status.pe = false ∧
    (link_received d).status.oe = false ∧
    (link_received d).status.fe = false := by
  have h := write_data_config (i8251_write (i8251_write i8251_init true 0x7E) true 0x01) d
  have hr := link_received_eq d hd
  refine ⟨by decide, by decide, ?_, ?_, ?_, by decide, ?_, ?_, ?_, ?_, ?_, ?_⟩
  · rw [link_tx, h.1]; decide
  · rw [link_tx, h.2.2.2 (by decide)]; decide
  · rw [link_tx, h.2.1]; decide
  · rw [hr]; rfl
  · rw [hr]; rfl
  · rw [hr]; rfl
  · rw [hr]; rfl
  · rw [hr]; rfl
  · rw [hr]; rfl

theorem C1_round_trip_witness :
    (0xA5 : Nat) < 256 ∧
    (link_received 0xA5).status.rxrdy = true ∧
    (link_received 0xA5).rx_data = 0xA5 ∧
    (i8251_read (link_received 0xA5) false).1 = 0xA5 ∧
    (link_received 0xA5).status.pe = false ∧
    (link_received 0xA5).status.oe = false ∧
    (link_received 0xA5).status.fe = false :=
  ⟨by decide, (C1_round_trip 0xA5 (by decide)).2.2.2.2.2.2⟩

/-- Claim C2. Overrun: in every state for which the call `i8251_tick_rx usart rxd`
completes a frame (asynchronous format, receive-enable asserted, mid-frame)
whose start bit is 0, and in which receive-ready is already set with pending
byte `b`, the call sets overrun-error, leaves `b` in the data register and
receive-ready set, and a following data-channel read returns `b`. -/
theorem C2_overrun_keeps_first_byte (usart : i8251_usart_t) (rxd b : Nat)
    (hframe : completes_frame usart rxd)
    (hstart : (rx_frame usart rxd).testBit 0 = false)
    (hrdy : usart.status.rxrdy = true)
    (hb : usart.rx_data = b) :
    (i8251_tick_rx usart rxd).status.oe = true ∧
    (i8251_tick_rx usart rxd).rx_data = b ∧
    (i8251_tick_rx usart rxd).status.rxrdy = true ∧
    (i8251_read (i8251_tick_rx usart rxd) false).1 = b := by
  have hs : ¬ (rx_frame usart rxd &&& 1 ≠ 0) := by
    simpa [Nat.testBit, Nat.and_comm] using hstart
  rw [tick_rx_completes usart rxd hframe, if_neg hs]
  simp [i8251_rx_complete_async, hframe.1, hrdy, hb, i8251_read]

theorem C2_overrun_keeps_first_byte_witness :
    completes_frame rx_second_frame 1 ∧
    (rx_frame rx_second_frame 1).testBit 0 = false ∧
    rx_second_frame.status.rxrdy = true ∧
    rx_second_frame.rx_data = 1 ∧
    (i8251_tick_rx rx_second_frame 1).status.oe = true ∧
    (i8251_tick_rx rx_second_frame 1).rx_data = 1 ∧
    (i8251_tick_rx rx_second_frame 1).status.rxrdy = true ∧
    (i8251_read (i8251_tick_rx rx_second_frame 1) false).1 = 1 :=
  ⟨by decide, by decide, by decide, by decide,
    C2_overrun_keeps_first_byte rx_second_frame 1 1 (by decide) (by decide) (by decide)
      (by decide)⟩

/-- Claim C3, as stated, fails: from `i8251_init` (stage AwaitingMode) a control
write of 0x40, whose bit 6 is set, is taken as a mode instruction and moves the
stage to AwaitingSyncChar1; in stage AwaitingSyncChar2 the same write is taken
as sync character 2 and leaves a pending parity error set. -/
theorem C3_reset_not_unconditional :
    Nat.testBit 0x40 6 = true ∧
    i8251_init.mode_st = i8251_mode_enum_t.I8251_MODE_INSTR ∧
    (i8251_write i8251_init true 0x40).mode_st = i8251_mode_enum_t.I8251_SYNC_CHAR_1 ∧
    (i8251_write i8251_init true 0x40).mode_st ≠ i8251_mode_enum_t.I8251_MODE_INSTR ∧
    (i8251_write
      { i8251_init with
        mode_st := i8251_mode_enum_t.I8251_SYNC_CHAR_2
        status := { i8251_init.status with pe := true } } true 0x40).status.pe = true ∧
    (i8251_write
      { i8251_init with
        mode_st := i8251_mode_enum_t.I8251_SYNC_CHAR_2
        status := { i8251_init.status with pe := true } } true 0x40).mode_st
      = i8251_mode_enum_t.I8251_COMMAND_INSTR := by
  decide

/-- Claim C3, amended. Internal-reset in the command stage: for every device
state whose configuration-stage is AwaitingCommand, whatever its error flags, a
control-channel write of any byte with bit 6 set results in
configuration-stage AwaitingMode, parity-error, overrun-error and
framing-error clear, transmit-ready and transmit-empty set, and the
clear-to-send and data-set-ready inputs asserted. -/
theorem C3_internal_reset_in_command_stage (usart : i8251_usart_t) (b : Nat)
    (hst : usart.mode_st = i8251_mode_enum_t.I8251_COMMAND_INSTR)
    (hb : b.testBit 6 = true) :
    (i8251_write usart true b).mode_st = i8251_mode_enum_t.I8251_MODE_INSTR ∧
    (i8251_write usart true b).status.pe = false ∧
    (i8251_write usart true b).status.oe = false ∧
    (i8251_write usart true b).status.fe = false ∧
    (i8251_write usart true b).status.txrdy = true ∧
    (i8251_write usart true b).status.txe = true ∧
    (i8251_write usart true b).cts = true ∧
    (i8251_write usart true b).dsr = true := by
  simp only [i8251_write, hst, decode_command_testBit, hb, error_clear]
  cases b.testBit 4 <;> simp

theorem C3_internal_reset_in_command_stage_witness :
    link_rx.mode_st = i8251_mode_enum_t.I8251_COMMAND_INSTR ∧
    Nat.testBit 0x40 6 = true ∧
    (i8251_write link_rx true 0x40).mode_st = i8251_mode_enum_t.I8251_MODE_INSTR ∧
    (i8251_write link_rx true 0x40).status.pe = false ∧
    (i8251_write link_rx true 0x40).status.oe = false ∧
    (i8251_write link_rx true 0x40).status.fe = false ∧
    (i8251_write link_rx true 0x40).status.txrdy = true ∧
    (i8251_write link_rx true 0x40).status.txe = true ∧
    (i8251_write link_rx true 0x40).cts = true ∧
    (i8251_write link_rx true 0x40).dsr = true :=
  ⟨by decide, by decide,
    C3_internal_reset_in_command_stage link_rx 0x40 (by decide) (by decide)⟩

/-- Claim C4. Parity engine: for every byte `data`, every width in 5..8 and both
polarities, `parity_bit data width even` is the bit `p` for which the number
of 1 bits among the low `width` bits of `data`, plus `p`, is even when `even`
is true and odd when it is false; flipping any single bit of `data` below
position `width` flips the result; and a byte that agrees with `data` on the
low `width` bits gives the same result. -/
theorem C4_parity_engine (data width : Nat) (even : Bool)
    (hd : data < 256) (hlo : 5 ≤ width) (hhi : width ≤ 8) :
    (∀ p : Bool, parity_bit data width even = p ↔
      (ones_below data width + c_int p) % 2 = (if even then 0 else 1)) ∧
    (∀ i, i < width →
      parity_bit (data ^^^ (1 <<< i)) width even = !parity_bit data width even) ∧
    (∀ other, other < 256 → other % 2 ^ width = data % 2 ^ width →
      parity_bit other width even = parity_bit data width even) := by
  obtain ⟨w, rfl⟩ : ∃ w, width = w + 5 := ⟨width - 5, by omega⟩
  have hw : w < 4 := by omega
  have key := fun (x : Nat) (hx : x < 256) => parity_bit_table ⟨x, hx⟩ ⟨w, hw⟩
  simp only at key
  have hk := key data hd
  refine ⟨?_, ?_, ?_⟩
  · intro p
    cases even
    · have h := hk.2.1
      clear hk key
      generalize ones_below data (w + 5) = n at h ⊢
      cases hq : parity_bit data (w + 5) false <;> cases p <;>
        simp [hq, c_int] at h ⊢ <;> omega
    · have h := hk.1
      clear hk key
      generalize ones_below data (w + 5) = n at h ⊢
      cases hq : parity_bit data (w + 5) true <;> cases p <;>
        simp [hq, c_int] at h ⊢ <;> omega
  · intro i hi
    have hi8 : i < 8 := by omega
    cases even
    · exact hk.2.2.2.1 ⟨i, hi8⟩ hi
    · exact hk.2.2.1 ⟨i, hi8⟩ hi
  · intro other ho hmod
    have hko := key other ho
    cases even
    · rw [hko.2.2.2.2.2, hk.2.2.2.2.2, hmod]
    · rw [hko.2.2.2.2.1, hk.2.2.2.2.1, hmod]

theorem C4_parity_engine_witness :
    (0xA5 : Nat) < 256 ∧ 5 ≤ 7 ∧ 7 ≤ 8 ∧
    ((∀ p : Bool, parity_bit 0xA5 7 true = p ↔
      (ones_below 0xA5 7 + c_int p) % 2 = (if true then 0 else 1)) ∧
    (∀ i, i < 7 →
      parity_bit (0xA5 ^^^ (1 <<< i)) 7 true = !parity_bit 0xA5 7 true) ∧
    (∀ other, other < 256 → other % 2 ^ 7 = 0xA5 % 2 ^ 7 →
      parity_bit other 7 true = parity_bit 0xA5 7 true)) :=
  ⟨by decide, by decide, by decide,
    C4_parity_engine 0xA5 7 true (by decide) (by decide) (by decide)⟩

/-- Claim C5. Invalid start bit: in every state for which the call
`i8251_tick_rx usart rxd` completes a frame (asynchronous format,
receive-enable asserted, receive-busy set, divider reaching the divisor, shifter
reaching the frame length) and bit 0 of the accumulated frame is 1, the call
sets framing-error, leaves receive-ready, the data register, parity-error and
overrun-error unchanged, clears receive-busy and empties the receive shifter. -/
theorem C5_invalid_start_bit (usart : i8251_usart_t) (rxd : Nat)
    (hframe : completes_frame usart rxd)
    (hstart : (rx_frame usart rxd).testBit 0 = true) :
    (i8251_tick_rx usart rxd).status.fe = true ∧
    (i8251_tick_rx usart rxd).status.rxrdy = usart.status.rxrdy ∧
    (i8251_tick_rx usart rxd).rx_data = usart.rx_data ∧
    (i8251_tick_rx usart rxd).status.pe = usart.status.pe ∧
    (i8251_tick_rx usart rxd).status.oe = usart.status.oe ∧
    (i8251_tick_rx usart rxd).rx_busy = false ∧
    (i8251_tick_rx usart rxd).rx_shift = { bits := 0, bits_len := 0 } := by
  have hs : rx_frame usart rxd &&& 1 ≠ 0 := by
    simpa [Nat.testBit, Nat.and_comm] using hstart
  rw [tick_rx_completes usart rxd hframe, if_pos hs]
  simp

theorem C5_invalid_start_bit_witness :
    completes_frame rx_bad_start 1 ∧
    (rx_frame rx_bad_start 1).testBit 0 = true ∧
    (i8251_tick_rx rx_bad_start 1).status.fe = true ∧
    (i8251_tick_rx rx_bad_start 1).status.rxrdy = rx_bad_start.status.rxrdy ∧
    (i8251_tick_rx rx_bad_start 1).rx_data = rx_bad_start.rx_data ∧
    (i8251_tick_rx rx_bad_start 1).status.pe = rx_bad_start.status.pe ∧
    (i8251_tick_rx rx_bad_start 1).status.oe = rx_bad_start.status.oe ∧
    (i8251_tick_rx rx_bad_start 1).rx_busy = false ∧
    (i8251_tick_rx rx_bad_start 1).rx_shift = { bits := 0, bits_len := 0 } :=
  ⟨by decide, by decide, C5_invalid_start_bit rx_bad_start 1 (by decide) (by decide)⟩

/-- Claim C6. Break: for every device state with transmit-enable and send-break
asserted, after any sequence of `i8251_tick_tx` calls, `i8251_tick_rx` calls,
reads on either channel, data-channel writes and changes of the external
inputs that contains at least one `i8251_tick_tx` call and no control-channel
write, `i8251_tx_line` returns 0, transmit-ready and transmit-empty are false,
and bits 0 and 2 of the status byte read 0. -/
theorem C6_break_holds_line_low (usart : i8251_usart_t) (ops : List i8251_op)
    (htexn : usart.command.texn = true) (hsbrk : usart.command.sbrk = true)
    (hops : ∀ o ∈ ops, ∀ data, o ≠ i8251_op.write true data)
    (hn : 1 ≤ ops.count i8251_op.tick_tx) :
    i8251_tx_line (run_ops usart ops) = 0 ∧
    (run_ops usart ops).status.txrdy = false ∧
    (run_ops usart ops).status.txe = false ∧
    (i8251_read (run_ops usart ops) true).1.testBit 0 = false ∧
    (i8251_read (run_ops usart ops) true).1.testBit 2 = false := by
  have hmem : i8251_op.tick_tx ∈ ops := List.count_pos_iff.mp hn
  have h := break_run ops usart htexn hsbrk hops (Or.inr hmem)
  have hb := read_control_bits (run_ops usart ops)
  refine ⟨?_, h.2.1, h.2.2, ?_, ?_⟩
  · simp [i8251_tx_line, h.1]
  · rw [hb.1]; exact h.2.1
  · rw [hb.2.2.1]; exact h.2.2

theorem C6_break_holds_line_low_witness :
    tx_in_break.command.texn = true ∧ tx_in_break.command.sbrk = true ∧
    1 ≤ List.count i8251_op.tick_tx
      [i8251_op.tick_tx, i8251_op.tick_rx 0, i8251_op.read true, i8251_op.write false 0x55,
        i8251_op.read false, i8251_op.tick_tx, i8251_op.tick_rx 1] ∧
    i8251_tx_line (run_ops tx_in_break
      [i8251_op.tick_tx, i8251_op.tick_rx 0, i8251_op.read true, i8251_op.write false 0x55,
        i8251_op.read false, i8251_op.tick_tx, i8251_op.tick_rx 1]) = 0 ∧
    (run_ops tx_in_break
      [i8251_op.tick_tx, i8251_op.tick_rx 0, i8251_op.read true, i8251_op.write false 0x55,
        i8251_op.read false, i8251_op.tick_tx, i8251_op.tick_rx 1]).status.txrdy = false :=
  have h := C6_break_holds_line_low tx_in_break
    [i8251_op.tick_tx, i8251_op.tick_rx 0, i8251_op.read true, i8251_op.write false 0x55,
      i8251_op.read false, i8251_op.tick_tx, i8251_op.tick_rx 1]
    (by decide) (by decide)
    (by
      intro o ho data hw
      subst hw
      simp at ho)
    (by decide)
  ⟨by decide, by decide, by decide, h.1, h.2.1⟩

/-- Claim C7. Status byte: for every device state, a control-channel
`i8251_read` returns the byte whose bit 0 is transmit-ready, bit 1
receive-ready, bit 2 transmit-empty, bit 3 parity-error, bit 4 overrun-error,
bit 5 framing-error, bit 6 sync-detect and bit 7 the current level of the
external data-set-ready input; the read changes nothing in the device state
except the data-set-ready status flag, which becomes equal to that input. -/
theorem C7_status_byte (usart : i8251_usart_t) :
    (i8251_read usart true).1.testBit 0 = usart.status.txrdy ∧
    (i8251_read usart true).1.testBit 1 = usart.status.rxrdy ∧
    (i8251_read usart true).1.testBit 2 = usart.status.txe ∧
    (i8251_read usart true).1.testBit 3 = usart.status.pe ∧
    (i8251_read usart true).1.testBit 4 = usart.status.oe ∧
    (i8251_read usart true).1.testBit 5 = usart.status.fe ∧
    (i8251_read usart true).1.testBit 6 = usart.status.syndet ∧
    (i8251_read usart true).1.testBit 7 = usart.dsr ∧
    (i8251_read usart true).1 < 256 ∧
    (i8251_read usart true).2 = { usart with status := { usart.status with dsr := usart.dsr } } := by
  have h := read_control_bits usart
  exact ⟨h.1, h.2.1, h.2.2.1, h.2.2.2.1, h.2.2.2.2.1, h.2.2.2.2.2.1, h.2.2.2.2.2.2.1,
    h.2.2.2.2.2.2.2.1, h.2.2.2.2.2.2.2.2, rfl⟩

/-- Claim C8. Asynchronous mode instruction: for every device state in
AwaitingMode and every byte `b` with `(b & 3) != 0`, a control-channel write of
`b` sets format to Asynchronous, the divisor to 1, 16 or 64 for low bits 01,
10, 11, the character length to `5 + ((b >> 2) & 3)`, parity-enable to bit 4,
even-parity to bit 5, the stop-bit count to 1 when bits 7:6 are 00 or 01 and to
2 when they are 10 or 11, and the configuration-stage to AwaitingCommand; so
the stored divisor is 1, 16 or 64, the character length lies in 5..8 and the
stop-bit count is 1 or 2. -/
theorem C8_async_mode_instruction (usart : i8251_usart_t) (b : Nat)
    (hst : usart.mode_st = i8251_mode_enum_t.I8251_MODE_INSTR)
    (hb : b &&& 3 ≠ 0) :
    (i8251_write usart true b).format = i8251_format_t.I8251_ASYNC ∧
    (i8251_write usart true b).mode.asynchronous_mode.baud_sel
      = (if b &&& 3 = 1 then 1 else if b &&& 3 = 2 then 16 else 64) ∧
    (i8251_write usart true b).mode.asynchronous_mode.char_len = 5 + ((b >>> 2) &&& 3) ∧
    (i8251_write usart true b).mode.asynchronous_mode.pen = b.testBit 4 ∧
    (i8251_write usart true b).mode.asynchronous_mode.ep = b.testBit 5 ∧
    (i8251_write usart true b).mode.asynchronous_mode.stop_len
      = (if (b >>> 6) &&& 3 = 0 ∨ (b >>> 6) &&& 3 = 1 then 1 else 2) ∧
    (i8251_write usart true b).mode_st = i8251_mode_enum_t.I8251_COMMAND_INSTR ∧
    ((i8251_write usart true b).mode.asynchronous_mode.baud_sel = 1 ∨
      (i8251_write usart true b).mode.asynchronous_mode.baud_sel = 16 ∨
      (i8251_write usart true b).mode.asynchronous_mode.baud_sel = 64) ∧
    (5 ≤ (i8251_write usart true b).mode.asynchronous_mode.char_len ∧
      (i8251_write usart true b).mode.asynchronous_mode.char_len ≤ 8) ∧
    ((i8251_write usart true b).mode.asynchronous_mode.stop_len = 1 ∨
      (i8251_write usart true b).mode.asynchronous_mode.stop_len = 2) := by
  have h1 := and_three_lt b
  have h2 := and_three_lt (b >>> 2)
  have h3 := and_three_lt (b >>> 6)
  generalize hx : b &&& 3 = x at *
  generalize hy : (b >>> 2) &&& 3 = y at *
  generalize hz : (b >>> 6) &&& 3 = z at *
  simp only [i8251_write, hst, decode_async_mode, store_asynchronous_mode,
    i8251_mode_union.asynchronous_mode, c_bool_shift_and_one, hx, hy, hz]
  interval_cases x <;> interval_cases y <;> interval_cases z <;> simp_all

theorem C8_async_mode_instruction_witness :
    i8251_init.mode_st = i8251_mode_enum_t.I8251_MODE_INSTR ∧ 0x7E &&& 3 ≠ 0 ∧
    (i8251_write i8251_init true 0x7E).format = i8251_format_t.I8251_ASYNC ∧
    (i8251_write i8251_init true 0x7E).mode.asynchronous_mode.baud_sel
      = (if 0x7E &&& 3 = 1 then 1 else if 0x7E &&& 3 = 2 then 16 else 64) ∧
    (i8251_write i8251_init true 0x7E).mode.asynchronous_mode.char_len
      = 5 + ((0x7E >>> 2) &&& 3) :=
  have h := C8_async_mode_instruction i8251_init 0x7E (by decide) (by decide)
  ⟨by decide, by decide, h.1, h.2.1, h.2.2.1⟩

/-- Claim C9. Synchronous configuration sequence: for every device state in
AwaitingMode and every byte `b` with `(b & 3) == 0`, a control-channel write of
`b` sets format to Synchronous, character length `5 + ((b >> 2) & 3)`,
parity-enable bit 4, even-parity bit 5, external-sync-detect bit 6, single-sync
bit 7, and stage AwaitingSyncChar1. If the single-sync flag is set, the next
control write `c1` is stored as sync character 1 and the stage becomes
AwaitingCommand; if it is clear, `c1` is stored as sync character 1 and the
stage becomes AwaitingSyncChar2, and the following control write `c2` is stored
as sync character 2 and the stage becomes AwaitingCommand. -/
theorem C9_sync_configuration_sequence (usart : i8251_usart_t) (b c1 c2 : Nat)
    (hst : usart.mode_st = i8251_mode_enum_t.I8251_MODE_INSTR)
    (hb : b &&& 3 = 0) :
    (i8251_write usart true b).format = i8251_format_t.I8251_SYNC ∧
    (i8251_write usart true b).mode.synchronous_mode.char_len = 5 + ((b >>> 2) &&& 3) ∧
    (i8251_write usart true b).mode.synchronous_mode.pen = b.testBit 4 ∧
    (i8251_write usart true b).mode.synchronous_mode.ep = b.testBit 5 ∧
    (i8251_write usart true b).mode.synchronous_mode.esd = b.testBit 6 ∧
    (i8251_write usart true b).mode.synchronous_mode.scs = b.testBit 7 ∧
    (i8251_write usart true b).mode_st = i8251_mode_enum_t.I8251_SYNC_CHAR_1 ∧
    (b.testBit 7 = true →
      (i8251_write (i8251_write usart true b) true c1).sync_char1 = c1 ∧
      (i8251_write (i8251_write usart true b) true c1).mode_st
        = i8251_mode_enum_t.I8251_COMMAND_INSTR) ∧
    (b.testBit 7 = false →
      (i8251_write (i8251_write usart true b) true c1).sync_char1 = c1 ∧
      (i8251_write (i8251_write usart true b) true c1).mode_st
        = i8251_mode_enum_t.I8251_SYNC_CHAR_2 ∧
      (i8251_write (i8251_write (i8251_write usart true b) true c1) true c2).sync_char1 = c1 ∧
      (i8251_write (i8251_write (i8251_write usart true b) true c1) true c2).sync_char2 = c2 ∧
      (i8251_write (i8251_write (i8251_write usart true b) true c1) true c2).mode_st
        = i8251_mode_enum_t.I8251_COMMAND_INSTR) := by
  have h2 := and_three_lt (b >>> 2)
  have e1 : i8251_write usart true b =
      { usart with
        format := i8251_format_t.I8251_SYNC
        mode := store_synchronous_mode (decode_sync_mode b)
        mode_st := i8251_mode_enum_t.I8251_SYNC_CHAR_1 } := by
    simp only [i8251_write, hst, hb]
    simp
  have e2 : (store_synchronous_mode (decode_sync_mode b)).synchronous_mode =
      { char_len := 5 + ((b >>> 2) &&& 3), pen := b.testBit 4, ep := b.testBit 5
        esd := b.testBit 6, scs := b.testBit 7 } := by
    generalize hy : (b >>> 2) &&& 3 = y at *
    simp only [decode_sync_mode, store_synchronous_mode, i8251_mode_union.synchronous_mode,
      c_bool_shift_and_one, hy]
    interval_cases y <;> cases b.testBit 4 <;> cases b.testBit 5 <;> simp [c_int, c_bool]
  rw [e1]
  simp only [e2]
  refine ⟨trivial, trivial, trivial, trivial, trivial, trivial, trivial, ?_, ?_⟩
  · intro h7
    simp [i8251_write, e2, h7]
  · intro h7
    simp [i8251_write, e2, h7]

theorem C9_sync_configuration_sequence_witness :
    i8251_init.mode_st = i8251_mode_enum_t.I8251_MODE_INSTR ∧ 0x00 &&& 3 = 0 ∧
    (i8251_write i8251_init true 0x00).format = i8251_format_t.I8251_SYNC ∧
    (i8251_write i8251_init true 0x00).mode_st = i8251_mode_enum_t.I8251_SYNC_CHAR_1 ∧
    (Nat.testBit 0x00 7 = false →
      (i8251_write (i8251_write i8251_init true 0x00) true 0x16).sync_char1 = 0x16 ∧
      (i8251_write (i8251_write i8251_init true 0x00) true 0x16).mode_st
        = i8251_mode_enum_t.I8251_SYNC_CHAR_2 ∧
      (i8251_write (i8251_write (i8251_write i8251_init true 0x00) true 0x16) true 0x17).sync_char1
        = 0x16 ∧
      (i8251_write (i8251_write (i8251_write i8251_init true 0x00) true 0x16) true 0x17).sync_char2
        = 0x17 ∧
      (i8251_write (i8251_write (i8251_write i8251_init true 0x00) true 0x16) true 0x17).mode_st
        = i8251_mode_enum_t.I8251_COMMAND_INSTR) :=
  have h := C9_sync_configuration_sequence i8251_init 0x00 0x16 0x17 (by decide) (by decide)
  ⟨by decide, by decide, h.1, h.2.2.2.2.2.2.1, h.2.2.2.2.2.2.2.2⟩

/-- Claim C10. Frame completion: in every state for which the call
`i8251_tick_rx usart rxd` completes a frame (asynchronous format,
receive-enable asserted, receive-busy set) whose bit 0 is 0, with receive-ready
clear, the data register becomes the frame's bits 1..L (L the character
length), receive-ready becomes set, parity-error afterwards is parity-error
before or (parity enabled and the frame's bit 1+L differs from
`parity_bit` of the data), framing-error afterwards is framing-error before or
(some stop-bit position reads 0), and overrun-error is unchanged; and there is
such a call that raises parity-error and framing-error together. -/
theorem C10_frame_completion :
    (∀ (usart : i8251_usart_t) (rxd : Nat),
      completes_frame usart rxd →
      (rx_frame usart rxd).testBit 0 = false →
      usart.status.rxrdy = false →
      (i8251_tick_rx usart rxd).rx_data = (rx_frame usart rxd >>> 1) % 2 ^ async_data_len usart ∧
      (i8251_tick_rx usart rxd).status.rxrdy = true ∧
      ((i8251_tick_rx usart rxd).status.pe = true ↔
        (usart.status.pe = true ∨
          (usart.mode.asynchronous_mode.pen = true ∧
            (rx_frame usart rxd).testBit (1 + async_data_len usart) ≠
              parity_bit ((rx_frame usart rxd >>> 1) % 2 ^ async_data_len usart)
                (async_data_len usart) usart.mode.asynchronous_mode.ep))) ∧
      ((i8251_tick_rx usart rxd).status.fe = true ↔
        (usart.status.fe = true ∨
          ∃ i, i < async_stop_len usart ∧
            (rx_frame usart rxd).testBit
              (1 + async_data_len usart + c_int usart.mode.asynchronous_mode.pen + i) = false)) ∧
      (i8251_tick_rx usart rxd).status.oe = usart.status.oe) ∧
    (∃ (usart : i8251_usart_t) (rxd : Nat),
      completes_frame usart rxd ∧ (rx_frame usart rxd).testBit 0 = false ∧
      usart.status.rxrdy = false ∧ usart.status.pe = false ∧ usart.status.fe = false ∧
      (i8251_tick_rx usart rxd).status.pe = true ∧ (i8251_tick_rx usart rxd).status.fe = true) :=
  ⟨rx_complete_fields, rx_before_stop, 0, by decide⟩

theorem C10_frame_completion_witness :
    completes_frame rx_before_stop 1 ∧
    (rx_frame rx_before_stop 1).testBit 0 = false ∧
    rx_before_stop.status.rxrdy = false ∧
    (i8251_tick_rx rx_before_stop 1).rx_data
      = (rx_frame rx_before_stop 1 >>> 1) % 2 ^ async_data_len rx_before_stop ∧
    (i8251_tick_rx rx_before_stop 1).status.rxrdy = true ∧
    (i8251_tick_rx rx_before_stop 1).status.oe = rx_before_stop.status.oe :=
  have h := C10_frame_completion.1 rx_before_stop 1 (by decide) (by decide) (by decide)
  ⟨by decide, by decide, by decide, h.1, h.2.1, h.2.2.2.2⟩

/-- Claim C11. Error flags are sticky: for every device state and every
operation (`i8251_tick_tx`, `i8251_tick_rx` with any input bit, `i8251_read`
and `i8251_write` on either channel with any byte, or a change of an external
input), a parity-error, overrun-error or framing-error flag that is set before
the operation is clear after it if and only if the operation is a
control-channel write made in AwaitingCommand whose byte has bit 4 or bit 6
set; such a write clears all three flags; and `i8251_tick_rx`, whatever frame
it completes, leaves a set flag set. -/
theorem C11_error_flags_sticky (usart : i8251_usart_t) (o : i8251_op) :
    (usart.status.pe = true →
      ((apply_op usart o).status.pe = false ↔ clears_errors usart o)) ∧
    (usart.status.oe = true →
      ((apply_op usart o).status.oe = false ↔ clears_errors usart o)) ∧
    (usart.status.fe = true →
      ((apply_op usart o).status.fe = false ↔ clears_errors usart o)) ∧
    (clears_errors usart o →
      (apply_op usart o).status.pe = false ∧
      (apply_op usart o).status.oe = false ∧
      (apply_op usart o).status.fe = false) ∧
    (∀ rxd, usart.status.pe = true → (i8251_tick_rx usart rxd).status.pe = true) ∧
    (∀ rxd, usart.status.oe = true → (i8251_tick_rx usart rxd).status.oe = true) ∧
    (∀ rxd, usart.status.fe = true → (i8251_tick_rx usart rxd).status.fe = true) := by
  have hrx : ∀ rxd, ¬ clears_errors usart (i8251_op.tick_rx rxd) := by
    rintro rxd ⟨b, hb, _⟩
    cases hb
  refine ⟨?_, ?_, ?_, ?_, ?_, ?_, ?_⟩
  · intro hset
    rcases errors_after usart o with ⟨hc, hp, _, _⟩ | ⟨hc, hp, _, _⟩
    · exact ⟨fun _ => hc, fun _ => hp⟩
    · exact ⟨fun h => (by rw [hp hset] at h; cases h), fun h => absurd h hc⟩
  · intro hset
    rcases errors_after usart o with ⟨hc, _, hp, _⟩ | ⟨hc, _, hp, _⟩
    · exact ⟨fun _ => hc, fun _ => hp⟩
    · exact ⟨fun h => (by rw [hp hset] at h; cases h), fun h => absurd h hc⟩
  · intro hset
    rcases errors_after usart o with ⟨hc, _, _, hp⟩ | ⟨hc, _, _, hp⟩
    · exact ⟨fun _ => hc, fun _ => hp⟩
    · exact ⟨fun h => (by rw [hp hset] at h; cases h), fun h => absurd h hc⟩
  · intro hc
    rcases errors_after usart o with ⟨_, h⟩ | ⟨hn, _⟩
    · exact h
    · exact absurd hc hn
  · intro rxd hset
    rcases errors_after usart (i8251_op.tick_rx rxd) with ⟨hc, _⟩ | ⟨_, hp, _, _⟩
    · exact absurd hc (hrx rxd)
    · exact hp hset
  · intro rxd hset
    rcases errors_after usart (i8251_op.tick_rx rxd) with ⟨hc, _⟩ | ⟨_, _, hp, _⟩
    · exact absurd hc (hrx rxd)
    · exact hp hset
  · intro rxd hset
    rcases errors_after usart (i8251_op.tick_rx rxd) with ⟨hc, _⟩ | ⟨_, _, _, hp⟩
    · exact absurd hc (hrx rxd)
    · exact hp hset

theorem C11_error_flags_sticky_witness :
    (i8251_tick_rx rx_before_stop 0).status.pe = true ∧
    ((apply_op (i8251_tick_rx rx_before_stop 0) (i8251_op.write true 0x14)).status.pe = false ↔
      clears_errors (i8251_tick_rx rx_before_stop 0) (i8251_op.write true 0x14)) ∧
    (apply_op (i8251_tick_rx rx_before_stop 0) (i8251_op.write true 0x14)).status.pe = false :=
  have h := C11_error_flags_sticky (i8251_tick_rx rx_before_stop 0) (i8251_op.write true 0x14)
  ⟨by decide, h.1 (by decide), by decide⟩

/-- Claim C12. Transmit framing on data write: for every device state with
transmit-enable asserted and every byte `d`, a data-channel write of `d` stores
`d` as the transmit data register, clears transmit-ready and transmit-empty and
replaces the transmit shifter. In Asynchronous format with character length
`L` at most 8 (so for 5..8) and stop-bit count at most 2, `S` being that count
with 0 taken as 1, the shifter holds exactly `1 + L + (1 if parity) + S` bits:
bit 0 is 0, bits 1..L are the low `L` bits of `d` least-significant first, the
next bit, when parity is enabled, is `parity_bit d L even`, and the last `S`
bits are 1. In Synchronous format with `L` at most 8 it holds the `L` data bits
least-significant first followed by the parity bit when enabled, and nothing
else. With transmit-enable deasserted the write only stores `d` as the transmit
data register. -/
theorem C12_transmit_framing (usart : i8251_usart_t) (d : Nat) :
    (usart.command.texn = true →
      (i8251_write usart false d).tx_data = d ∧
      (i8251_write usart false d).status.txrdy = false ∧
      (i8251_write usart false d).status.txe = false ∧
      (usart.format = i8251_format_t.I8251_ASYNC →
        usart.mode.asynchronous_mode.char_len ≤ 8 →
        usart.mode.asynchronous_mode.stop_len ≤ 2 →
        (i8251_write usart false d).tx_shift.bits_len
          = 1 + usart.mode.asynchronous_mode.char_len
            + c_int usart.mode.asynchronous_mode.pen + async_stop_len usart ∧
        (i8251_write usart false d).tx_shift.bits
          < 2 ^ (i8251_write usart false d).tx_shift.bits_len ∧
        (i8251_write usart false d).tx_shift.bits.testBit 0 = false ∧
        (∀ k, k < usart.mode.asynchronous_mode.char_len →
          (i8251_write usart false d).tx_shift.bits.testBit (1 + k) = d.testBit k) ∧
        (usart.mode.asynchronous_mode.pen = true →
          (i8251_write usart false d).tx_shift.bits.testBit
              (1 + usart.mode.asynchronous_mode.char_len)
            = parity_bit d usart.mode.asynchronous_mode.char_len
                usart.mode.asynchronous_mode.ep) ∧
        (∀ j, j < async_stop_len usart →
          (i8251_write usart false d).tx_shift.bits.testBit
            (1 + usart.mode.asynchronous_mode.char_len
              + c_int usart.mode.asynchronous_mode.pen + j) = true)) ∧
      (usart.format = i8251_format_t.I8251_SYNC →
        usart.mode.synchronous_mode.char_len ≤ 8 →
        (i8251_write usart false d).tx_shift.bits_len
          = usart.mode.synchronous_mode.char_len + c_int usart.mode.synchronous_mode.pen ∧
        (i8251_write usart false d).tx_shift.bits
          < 2 ^ (i8251_write usart false d).tx_shift.bits_len ∧
        (∀ k, k < usart.mode.synchronous_mode.char_len →
          (i8251_write usart false d).tx_shift.bits.testBit k = d.testBit k) ∧
        (usart.mode.synchronous_mode.pen = true →
          (i8251_write usart false d).tx_shift.bits.testBit usart.mode.synchronous_mode.char_len
            = parity_bit d usart.mode.synchronous_mode.char_len
                usart.mode.synchronous_mode.ep))) ∧
    (usart.command.texn = false → i8251_write usart false d = { usart with tx_data := d }) := by
  constructor
  · intro htexn
    rcases write_data_cases usart d with ⟨h, _⟩ | ⟨_, hfmt, h⟩ | ⟨_, hfmt, h⟩
    · rw [htexn] at h; cases h
    · rw [h]
      refine ⟨rfl, rfl, rfl, ?_, ?_⟩
      · intro _ hL hS
        have hl8 : (if usart.mode.asynchronous_mode.char_len > 8 then 8
            else usart.mode.asynchronous_mode.char_len) = usart.mode.asynchronous_mode.char_len :=
          if_neg (by omega)
        have hs : async_stop_len usart ≠ 0 ∧ async_stop_len usart ≤ 2 := by
          unfold async_stop_len; split <;> omega
        have hcb : c_int usart.mode.asynchronous_mode.pen ≤ 1 := by
          unfold c_int; split <;> omega
        have hspec := create_bitstream_async_spec d
          { usart.mode.asynchronous_mode with stop_len := async_stop_len usart }
        simp only [hl8, if_pos hs.1] at hspec
        exact hspec (by omega)
      · intro hs
        rw [hfmt] at hs; cases hs
    · rw [h]
      refine ⟨rfl, rfl, rfl, ?_, ?_⟩
      · intro ha
        rw [hfmt] at ha; cases ha
      · intro _ hL
        have hl8 : (if usart.mode.synchronous_mode.char_len > 8 then 8
            else usart.mode.synchronous_mode.char_len) = usart.mode.synchronous_mode.char_len :=
          if_neg (by omega)
        have hspec := create_bitstream_sync_spec d usart.mode.synchronous_mode
        simp only [hl8] at hspec
        exact hspec
  · intro htexn
    rcases write_data_cases usart d with ⟨_, h⟩ | ⟨h, _⟩ | ⟨h, _⟩
    · exact h
    · rw [htexn] at h; cases h
    · rw [htexn] at h; cases h

theorem C12_transmit_framing_witness :
    link_tx_base.command.texn = true ∧
    (i8251_write link_tx_base false 0xA5).tx_data = 0xA5 ∧
    (i8251_write link_tx_base false 0xA5).status.txrdy = false ∧
    (i8251_write link_tx_base false 0xA5).status.txe = false ∧
    (i8251_write link_tx_base false 0xA5).tx_shift.bits_len = 11 :=
  have h := (C12_transmit_framing link_tx_base 0xA5).1 (by decide)
  ⟨by decide, h.1, h.2.1, h.2.2.1, (h.2.2.2.1 (by decide) (by decide) (by decide)).1⟩

/-- Claim C13. Data read acknowledges: for every device state, a data-channel
`i8251_read` returns the content of the receive data register and leaves
receive-ready clear; every other part of the device state is unchanged, so a
second data read returns the same byte. -/
theorem C13_data_read_acknowledges (usart : i8251_usart_t) :
    (i8251_read usart false).1 = usart.rx_data ∧
    (i8251_read usart false).2.status.rxrdy = false ∧
    (i8251_read usart false).2 = { usart with status := { usart.status with rxrdy := false } } ∧
    (i8251_read (i8251_read usart false).2 false).1 = usart.rx_data :=
  ⟨rfl, rfl, rfl, rfl⟩

/-- Claim C14. Soft reset in AwaitingCommand: for every device state whose
configuration-stage is AwaitingCommand and every byte `c` with bit 6 set, a
control-channel write of `c` yields stage AwaitingMode, parity, overrun and
framing errors clear, receive-ready clear, transmit-ready and transmit-empty
set, clear-to-send and data-set-ready inputs asserted, both shifters empty,
receive-busy clear, both divider counters 0 and the transmit line high; the
command descriptor is the bit-for-bit decoding of `c`, request-to-send and
data-terminal-ready follow bits 5 and 1, and format, mode descriptor, both data
registers and both sync characters are unchanged. -/
theorem C14_soft_reset (usart : i8251_usart_t) (c : Nat)
    (hst : usart.mode_st = i8251_mode_enum_t.I8251_COMMAND_INSTR)
    (hc : c.testBit 6 = true) :
    (i8251_write usart true c).mode_st = i8251_mode_enum_t.I8251_MODE_INSTR ∧
    (i8251_write usart true c).status.pe = false ∧
    (i8251_write usart true c).status.oe = false ∧
    (i8251_write usart true c).status.fe = false ∧
    (i8251_write usart true c).status.rxrdy = false ∧
    (i8251_write usart true c).status.txrdy = true ∧
    (i8251_write usart true c).status.txe = true ∧
    (i8251_write usart true c).cts = true ∧
    (i8251_write usart true c).dsr = true ∧
    (i8251_write usart true c).tx_shift = { bits := 0, bits_len := 0 } ∧
    (i8251_write usart true c).rx_shift = { bits := 0, bits_len := 0 } ∧
    (i8251_write usart true c).rx_busy = false ∧
    (i8251_write usart true c).tx_clk_cnt = 0 ∧
    (i8251_write usart true c).rx_clk_cnt = 0 ∧
    (i8251_write usart true c).tx_pin = 1 ∧
    i8251_tx_line (i8251_write usart true c) = 1 ∧
    (i8251_write usart true c).command =
      { texn := c.testBit 0, dtr := c.testBit 1, rxe := c.testBit 2, sbrk := c.testBit 3
        er := c.testBit 4, rts := c.testBit 5, ir := c.testBit 6, eh := c.testBit 7 } ∧
    (i8251_write usart true c).rts = c.testBit 5 ∧
    (i8251_write usart true c).dtr = c.testBit 1 ∧
    (i8251_write usart true c).format = usart.format ∧
    (i8251_write usart true c).mode = usart.mode ∧
    (i8251_write usart true c).rx_data = usart.rx_data ∧
    (i8251_write usart true c).tx_data = usart.tx_data ∧
    (i8251_write usart true c).sync_char1 = usart.sync_char1 ∧
    (i8251_write usart true c).sync_char2 = usart.sync_char2 ∧
    (i8251_write usart true c).status.syndet = usart.status.syndet ∧
    (i8251_write usart true c).status.dsr = usart.status.dsr := by
  rw [write_command_reset usart c hst hc, decode_command_testBit]
  simp [i8251_tx_line]

theorem C14_soft_reset_witness :
    rx_second_frame.mode_st = i8251_mode_enum_t.I8251_COMMAND_INSTR ∧
    Nat.testBit 0x45 6 = true ∧
    (i8251_write rx_second_frame true 0x45).mode_st = i8251_mode_enum_t.I8251_MODE_INSTR ∧
    (i8251_write rx_second_frame true 0x45).status.pe = false ∧
    (i8251_write rx_second_frame true 0x45).status.oe = false ∧
    (i8251_write rx_second_frame true 0x45).status.fe = false ∧
    (i8251_write rx_second_frame true 0x45).status.rxrdy = false :=
  have h := C14_soft_reset rx_second_frame 0x45 (by decide) (by decide)
  ⟨by decide, by decide, h.1, h.2.1, h.2.2.1, h.2.2.2.1, h.2.2.2.2.1⟩

/-- Claim C15 fails on the code when the shift step empties the shifter. The
transmitter `sync_tx_last` (Synchronous format, transmit-enable asserted,
send-break clear) holds the last bit of the character 0x00, a 0; the call of
`i8251_tick_tx` that shifts it out leaves the line at 1, not at that bit, so
the eight calls for the character 0x00 put 0,0,0,0,0,0,0,1 on the line. -/
theorem C15_last_bit_overridden :
    sync_tx_last.command.texn = true ∧ sync_tx_last.command.sbrk = false ∧
    sync_tx_last.format = i8251_format_t.I8251_SYNC ∧
    sync_tx_last.tx_shift = { bits := 0, bits_len := 1 } ∧
    sync_tx_last.tx_shift.bits &&& 1 = 0 ∧
    i8251_tx_line (i8251_tick_tx sync_tx_last) = 1 ∧
    (i8251_tick_tx sync_tx_last).tx_shift = { bits := 0, bits_len := 0 } ∧
    (i8251_tick_tx sync_tx_last).status.txrdy = true ∧
    (i8251_tick_tx sync_tx_last).status.txe = true ∧
    (List.range 8).map (fun j => i8251_tx_line ((i8251_tick_tx^[j + 1]) sync_tx))
      = [0, 0, 0, 0, 0, 0, 0, 1] := by
  decide

/-- Claim C16. Transmit divider: for every device state in Asynchronous format
with divisor `D` in {1, 16, 64}, transmit-enable asserted, send-break clear,
clear-to-send asserted, transmit divider counter 0 and a transmit shifter
holding `n >= 1` bits, after `j` consecutive `i8251_tick_tx` calls exactly
`min n (j / D)` bits have been shifted out; a call whose number is not a
multiple of `D` leaves shifter, line and flags unchanged, and a call whose
number is a multiple of `D` shifts one bit while bits remain; after `n * D`
calls the shifter is empty, transmit-ready and transmit-empty are set and the
line is high. -/
theorem C16_transmit_divider (usart : i8251_usart_t) (D n j : Nat)
    (hD : D = 1 ∨ D = 16 ∨ D = 64)
    (hfmt : usart.format = i8251_format_t.I8251_ASYNC)
    (hdiv : usart.mode.asynchronous_mode.baud_sel = D)
    (htexn : usart.command.texn = true) (hsbrk : usart.command.sbrk = false)
    (hcts : usart.cts = true) (hcnt : usart.tx_clk_cnt = 0)
    (hlen : usart.tx_shift.bits_len = n) (hn : 1 ≤ n) :
    ((i8251_tick_tx^[j]) usart).tx_shift.bits_len = n - min n (j / D) ∧
    ((i8251_tick_tx^[j]) usart).tx_shift.bits = usart.tx_shift.bits >>> min n (j / D) ∧
    ((j + 1) % D ≠ 0 →
      ((i8251_tick_tx^[j + 1]) usart).tx_shift = ((i8251_tick_tx^[j]) usart).tx_shift ∧
      ((i8251_tick_tx^[j + 1]) usart).tx_pin = ((i8251_tick_tx^[j]) usart).tx_pin ∧
      ((i8251_tick_tx^[j + 1]) usart).status = ((i8251_tick_tx^[j]) usart).status) ∧
    ((j + 1) % D = 0 → j / D < n →
      ((i8251_tick_tx^[j + 1]) usart).tx_shift.bits_len + 1
        = ((i8251_tick_tx^[j]) usart).tx_shift.bits_len ∧
      ((i8251_tick_tx^[j + 1]) usart).tx_shift.bits
        = ((i8251_tick_tx^[j]) usart).tx_shift.bits >>> 1) ∧
    ((i8251_tick_tx^[n * D]) usart).tx_shift.bits_len = 0 ∧
    ((i8251_tick_tx^[n * D]) usart).status.txrdy = true ∧
    ((i8251_tick_tx^[n * D]) usart).status.txe = true ∧
    i8251_tx_line ((i8251_tick_tx^[n * D]) usart) = 1 := by
  have hrun := tx_after_run usart D hD hfmt hdiv htexn hsbrk hcts hcnt (by omega)
  have hDpos : 0 < D := by omega
  rw [hrun j, hrun (j + 1), hrun (n * D)]
  simp only [tx_after, tx_shifted, hlen]
  refine ⟨trivial, trivial, ?_, ?_, ?_⟩
  · intro hm
    have hq : (j + 1) / D = j / D := by
      rcases hD with h | h | h <;> subst h <;> omega
    rw [hq]
    exact ⟨rfl, rfl, rfl⟩
  · intro hm hlt
    have hq : (j + 1) / D = j / D + 1 := by
      rcases hD with h | h | h <;> subst h <;> omega
    rw [hq, Nat.min_eq_right (by omega : j / D ≤ n),
      Nat.min_eq_right (by omega : j / D + 1 ≤ n)]
    exact ⟨by omega, by rw [Nat.shiftRight_add]⟩
  · have hq : n * D / D = n := Nat.mul_div_cancel n hDpos
    have hn0 : n ≠ 0 := by omega
    rw [hq, Nat.min_self]
    simp [hn0, i8251_tx_line]

theorem C16_transmit_divider_witness :
    (link_tx 0xA5).format = i8251_format_t.I8251_ASYNC ∧
    (link_tx 0xA5).mode.asynchronous_mode.baud_sel = 16 ∧
    (link_tx 0xA5).tx_shift.bits_len = 11 ∧
    ((i8251_tick_tx^[40]) (link_tx 0xA5)).tx_shift.bits_len = 11 - min 11 (40 / 16) ∧
    ((i8251_tick_tx^[11 * 16]) (link_tx 0xA5)).tx_shift.bits_len = 0 ∧
    ((i8251_tick_tx^[11 * 16]) (link_tx 0xA5)).status.txrdy = true :=
  have h := C16_transmit_divider (link_tx 0xA5) 16 11 40 (by decide) (by decide) (by decide)
    (by decide) (by decide) (by decide) (by decide) (by decide) (by decide)
  ⟨by decide, by decide, by decide, h.1, h.2.2.2.2.1, h.2.2.2.2.2.1⟩

/-- Claim C17. Configuration-stage is forward-only: for every device state
whose stage is one of the four named positions and every operation, the stage
stays one of the four; `i8251_read`, `i8251_tick_tx`, `i8251_tick_rx`,
data-channel writes and changes of the external inputs leave it unchanged; a
control-channel write either moves it strictly forward in the order
AwaitingMode, AwaitingSyncChar1, AwaitingSyncChar2, AwaitingCommand, or leaves
it at AwaitingCommand, or returns it to AwaitingMode, and the last happens only
when the stage was AwaitingCommand and the byte has bit 6 set. -/
theorem C17_stage_forward_only (usart : i8251_usart_t) (o : i8251_op)
    (hst : usart.mode_st ≠ i8251_mode_enum_t.I8251_MODE_LEN) :
    (apply_op usart o).mode_st ≠ i8251_mode_enum_t.I8251_MODE_LEN ∧
    ((∀ b, o ≠ i8251_op.write true b) → (apply_op usart o).mode_st = usart.mode_st) ∧
    (∀ b, o = i8251_op.write true b →
      (stage_rank usart.mode_st < stage_rank (apply_op usart o).mode_st ∨
        (usart.mode_st = i8251_mode_enum_t.I8251_COMMAND_INSTR ∧
          (apply_op usart o).mode_st = i8251_mode_enum_t.I8251_COMMAND_INSTR) ∨
        (usart.mode_st = i8251_mode_enum_t.I8251_COMMAND_INSTR ∧ b.testBit 6 = true ∧
          (apply_op usart o).mode_st = i8251_mode_enum_t.I8251_MODE_INSTR)) ∧
      ((apply_op usart o).mode_st = i8251_mode_enum_t.I8251_MODE_INSTR →
        usart.mode_st = i8251_mode_enum_t.I8251_COMMAND_INSTR ∧ b.testBit 6 = true)) := by
  have hctl : ∀ b,
      (stage_rank usart.mode_st < stage_rank (i8251_write usart true b).mode_st ∨
        (usart.mode_st = i8251_mode_enum_t.I8251_COMMAND_INSTR ∧
          (i8251_write usart true b).mode_st = i8251_mode_enum_t.I8251_COMMAND_INSTR) ∨
        (usart.mode_st = i8251_mode_enum_t.I8251_COMMAND_INSTR ∧ b.testBit 6 = true ∧
          (i8251_write usart true b).mode_st = i8251_mode_enum_t.I8251_MODE_INSTR)) ∧
      ((i8251_write usart true b).mode_st = i8251_mode_enum_t.I8251_MODE_INSTR →
        usart.mode_st = i8251_mode_enum_t.I8251_COMMAND_INSTR ∧ b.testBit 6 = true) ∧
      (i8251_write usart true b).mode_st ≠ i8251_mode_enum_t.I8251_MODE_LEN := by
    intro b
    rcases write_control_effect usart b with ⟨h1, _, _, _, _, hm⟩ | ⟨_, _, _, _, hc, h0, hs1, hs2, _⟩
    · rw [hm, h1]
      cases h6 : b.testBit 6 <;> simp [stage_rank]
    · cases hcur : usart.mode_st
      · rcases h0 hcur with h | h <;> rw [h] <;> simp [stage_rank]
      · rcases hs1 hcur with h | h <;> rw [h] <;> simp [stage_rank]
      · rw [hs2 hcur]; simp [stage_rank]
      · rw [hc hcur]; simp [stage_rank]
      · exact absurd hcur hst
  by_cases hw : ∃ b, o = i8251_op.write true b
  · obtain ⟨b, rfl⟩ := hw
    refine ⟨(hctl b).2.2, fun h => absurd rfl (h b), ?_⟩
    intro c hc
    cases hc
    exact ⟨(hctl b).1, (hctl b).2.1⟩
  · have ho : ∀ b, o ≠ i8251_op.write true b := fun b hb => hw ⟨b, hb⟩
    have h := (op_effect usart o ho).1
    refine ⟨by rw [h]; exact hst, fun _ => h, ?_⟩
    intro b hb
    exact absurd hb (ho b)

theorem C17_stage_forward_only_witness :
    i8251_init.mode_st ≠ i8251_mode_enum_t.I8251_MODE_LEN ∧
    (apply_op i8251_init (i8251_op.write true 0x7E)).mode_st
      ≠ i8251_mode_enum_t.I8251_MODE_LEN ∧
    stage_rank i8251_init.mode_st
      < stage_rank (apply_op i8251_init (i8251_op.write true 0x7E)).mode_st :=
  have h := C17_stage_forward_only i8251_init (i8251_op.write true 0x7E) (by decide)
  ⟨by decide, h.1, by decide⟩

/-- Claim C18. Shifter bound: in every device state reached from `i8251_init`
by any sequence of `i8251_write`, `i8251_read`, `i8251_tick_tx` and
`i8251_tick_rx` calls and changes of the external inputs, with arbitrary bytes
and input bits, the valid-bit count of the transmit shifter and of the receive
shifter is at most 16. -/
theorem C18_shifter_bound (ops : List i8251_op) :
    (run_ops i8251_init ops).tx_shift.bits_len ≤ 16 ∧
    (run_ops i8251_init ops).rx_shift.bits_len ≤ 16 :=
  have h := run_keeps shifters_bounded op_keeps_shifters_bounded ops i8251_init
    init_shifters_bounded
  ⟨h.1, h.2.1⟩

/-- Claim C19. Errors need receive-enable: for every device state and every
operation, if parity-error, framing-error or overrun-error is clear before the
operation and set after it, then the operation is `i8251_tick_rx`, and
receive-enable was asserted and the format was Asynchronous when it was called.
With receive-enable deasserted `i8251_tick_rx` changes no status flag and not
the data register; it only clears receive-busy, the receive divider and the
receive shifter. -/
theorem C19_errors_need_receive_enable (usart : i8251_usart_t) (o : i8251_op) :
    (((usart.status.pe = false ∧ (apply_op usart o).status.pe = true) ∨
      (usart.status.fe = false ∧ (apply_op usart o).status.fe = true) ∨
      (usart.status.oe = false ∧ (apply_op usart o).status.oe = true)) →
      ∃ rxd, o = i8251_op.tick_rx rxd ∧ usart.command.rxe = true ∧
        usart.format = i8251_format_t.I8251_ASYNC) ∧
    (∀ rxd, usart.command.rxe = false →
      i8251_tick_rx usart rxd =
        { usart with rx_busy := false, rx_clk_cnt := 0, rx_shift := { bits := 0, bits_len := 0 } } ∧
      (i8251_tick_rx usart rxd).status = usart.status ∧
      (i8251_tick_rx usart rxd).rx_data = usart.rx_data) := by
  constructor
  · intro hnew
    by_cases hw : ∃ b, o = i8251_op.write true b
    · obtain ⟨b, rfl⟩ := hw
      exfalso
      have e : apply_op usart (i8251_op.write true b) = i8251_write usart true b := rfl
      rw [e] at hnew
      rcases write_control_effect usart b with ⟨_, _, hp, ho, hf, _⟩ | ⟨_, hp, ho, hf, _⟩
      · rw [hp, ho, hf] at hnew
        simp at hnew
      · rw [hp, ho, hf] at hnew
        rcases hnew with ⟨h1, h2⟩ | ⟨h1, h2⟩ | ⟨h1, h2⟩ <;> rw [h1] at h2 <;> cases h2
    · have ho : ∀ b, o ≠ i8251_op.write true b := fun b hb => hw ⟨b, hb⟩
      have h := (op_effect usart o ho).2.2.2.2
      by_cases hc : ∃ rxd, o = i8251_op.tick_rx rxd ∧ completes_frame usart rxd
      · obtain ⟨rxd, hrx, hcf⟩ := hc
        exact ⟨rxd, hrx, hcf.1, hcf.2.1⟩
      · exfalso
        have hsame := h (fun rxd hrx hcf => hc ⟨rxd, hrx, hcf⟩)
        rw [hsame.1, hsame.2.1, hsame.2.2] at hnew
        rcases hnew with ⟨h1, h2⟩ | ⟨h1, h2⟩ | ⟨h1, h2⟩ <;> rw [h1] at h2 <;> cases h2
  · intro rxd hrxe
    have h := tick_rx_disabled usart rxd (Or.inl hrxe)
    rw [h]
    exact ⟨rfl, rfl, rfl⟩

theorem C19_errors_need_receive_enable_witness :
    rx_before_stop.status.pe = false ∧
    (apply_op rx_before_stop (i8251_op.tick_rx 0)).status.pe = true ∧
    (∃ rxd, i8251_op.tick_rx 0 = i8251_op.tick_rx rxd ∧ rx_before_stop.command.rxe = true ∧
      rx_before_stop.format = i8251_format_t.I8251_ASYNC) :=
  have h := C19_errors_need_receive_enable rx_before_stop (i8251_op.tick_rx 0)
  ⟨by decide, by decide, h.1 (Or.inl ⟨by decide, by decide⟩)⟩

/-- Claim C20. Receive-idle invariant: in every device state reached from
`i8251_init` by any sequence of operations, if receive-busy is false then the
receive divider counter is 0 and the receive shifter is empty, and if
receive-busy is true then the receive shifter holds at least one bit and its
bit 0 is 0. Hence, from such a state, `i8251_tick_rx` with a nonzero input
while idle changes nothing at all, a completed frame always has start bit 0, so
the invalid-start-bit branch is never taken, and whenever `i8251_tick_rx` newly
sets framing-error it has also stored a byte and set receive-ready in the same
call. -/
theorem C20_receive_idle_invariant (ops : List i8251_op) :
    ((run_ops i8251_init ops).rx_busy = false →
      (run_ops i8251_init ops).rx_clk_cnt = 0 ∧
      (run_ops i8251_init ops).rx_shift = { bits := 0, bits_len := 0 }) ∧
    ((run_ops i8251_init ops).rx_busy = true →
      1 ≤ (run_ops i8251_init ops).rx_shift.bits_len ∧
      (run_ops i8251_init ops).rx_shift.bits.testBit 0 = false) ∧
    (∀ rxd, rxd ≠ 0 → (run_ops i8251_init ops).rx_busy = false →
      i8251_tick_rx (run_ops i8251_init ops) rxd = run_ops i8251_init ops) ∧
    (∀ rxd, completes_frame (run_ops i8251_init ops) rxd →
      (rx_frame (run_ops i8251_init ops) rxd).testBit 0 = false) ∧
    (∀ rxd, (run_ops i8251_init ops).status.fe = false →
      (i8251_tick_rx (run_ops i8251_init ops) rxd).status.fe = true →
      (run_ops i8251_init ops).status.rxrdy = false ∧
      (i8251_tick_rx (run_ops i8251_init ops) rxd).status.rxrdy = true ∧
      (i8251_tick_rx (run_ops i8251_init ops) rxd).rx_data
        = (rx_frame (run_ops i8251_init ops) rxd >>> 1)
          % 2 ^ async_data_len (run_ops i8251_init ops)) := by
  have hinv := run_keeps rx_idle_invariant op_keeps_idle_invariant ops i8251_init
    init_idle_invariant
  refine ⟨hinv.1, hinv.2, ?_, ?_, ?_⟩
  · intro rxd hrxd hidle
    exact idle_tick_is_identity _ rxd hrxd hinv hidle
  · intro rxd hcf
    exact frame_start_is_zero _ rxd hinv hcf
  · intro rxd hb ha
    exact (new_fe_stores_byte _ rxd hinv hb ha).2

theorem C20_receive_idle_invariant_witness :
    (run_ops i8251_init
      [i8251_op.write true 0x7D, i8251_op.write true 0x04, i8251_op.tick_rx 0]).rx_busy = true ∧
    1 ≤ (run_ops i8251_init
      [i8251_op.write true 0x7D, i8251_op.write true 0x04, i8251_op.tick_rx 0]).rx_shift.bits_len ∧
    (run_ops i8251_init
      [i8251_op.write true 0x7D, i8251_op.write true 0x04,
        i8251_op.tick_rx 0]).rx_shift.bits.testBit 0 = false :=
  have h := (C20_receive_idle_invariant
    [i8251_op.write true 0x7D, i8251_op.write true 0x04, i8251_op.tick_rx 0]).2.1 (by decide)
  ⟨by decide, h.1, h.2⟩

end I8251
